import Mathlib

/-!
Verification development for the WiFi-Spectrum-Suite repository
(`depurador_csv.py`, `Analisis_Interferencias.py`, `WiFi_Wardriving.py`).

Strings are modelled as `List Char` (`Str`). Python string primitives used by
the sources (`str.strip`, `str.split(',')`, `str.lower`, `str.upper`,
substring containment via `in`) are defined below from first principles so
that all reasoning is elementary list reasoning. The diagnostic prints of the
Python sources are modelled as returned values (counters, warning lists), and
raised-and-uncaught Python exceptions are modelled as `Except` errors.
-/

/-- Strings of the modelled programs: lists of characters. -/
abbrev Str := List Char

/-- Coerce a Lean string literal to the `Str` model. -/
def str (s : String) : Str := s.data

/-- Whitespace characters recognised by Python's `str.strip()` /  `\s`
(restricted to the ASCII whitespace class: space, tab, LF, VT, FF, CR). -/
def isPySpace (c : Char) : Bool :=
  c.toNat == 32 || c.toNat == 9 || c.toNat == 10 || c.toNat == 11 ||
  c.toNat == 12 || c.toNat == 13

/-- ASCII decimal digit test, as used by the `\d` regex class. -/
def isDigitChar (c : Char) : Bool :=
  48 ≤ c.toNat && c.toNat ≤ 57

/-- Numeric value of a digit character. -/
def digVal (c : Char) : Nat := c.toNat - 48

/-- The digit character for a value below ten (junk `'0'` otherwise). -/
def digitChar : Nat → Char
  | 0 => '0' | 1 => '1' | 2 => '2' | 3 => '3' | 4 => '4'
  | 5 => '5' | 6 => '6' | 7 => '7' | 8 => '8' | 9 => '9'
  | _ => '0'

/-- Python `str.lower()` on a single ASCII character. -/
def pyLowerChar : Char → Char
  | 'A' => 'a' | 'B' => 'b' | 'C' => 'c' | 'D' => 'd' | 'E' => 'e'
  | 'F' => 'f' | 'G' => 'g' | 'H' => 'h' | 'I' => 'i' | 'J' => 'j'
  | 'K' => 'k' | 'L' => 'l' | 'M' => 'm' | 'N' => 'n' | 'O' => 'o'
  | 'P' => 'p' | 'Q' => 'q' | 'R' => 'r' | 'S' => 's' | 'T' => 't'
  | 'U' => 'u' | 'V' => 'v' | 'W' => 'w' | 'X' => 'x' | 'Y' => 'y'
  | 'Z' => 'z' | c => c

/-- Python `str.upper()` on a single ASCII character. -/
def pyUpperChar : Char → Char
  | 'a' => 'A' | 'b' => 'B' | 'c' => 'C' | 'd' => 'D' | 'e' => 'E'
  | 'f' => 'F' | 'g' => 'G' | 'h' => 'H' | 'i' => 'I' | 'j' => 'J'
  | 'k' => 'K' | 'l' => 'L' | 'm' => 'M' | 'n' => 'N' | 'o' => 'O'
  | 'p' => 'P' | 'q' => 'Q' | 'r' => 'R' | 's' => 'S' | 't' => 'T'
  | 'u' => 'U' | 'v' => 'V' | 'w' => 'W' | 'x' => 'X' | 'y' => 'Y'
  | 'z' => 'Z' | c => c

/-- Python `str.lower()`. -/
def pyLower (s : Str) : Str := s.map pyLowerChar

/-- Python `str.upper()`. -/
def pyUpper (s : Str) : Str := s.map pyUpperChar

/-- Right-side trim: drop trailing whitespace. -/
def rstripWS (s : Str) : Str := (s.reverse.dropWhile isPySpace).reverse

/-- Python `str.strip()`: drop leading and trailing whitespace. -/
def pyStrip (s : Str) : Str := rstripWS (s.dropWhile isPySpace)

/-- Python `str.split(sep)` for a one-character separator: always returns at
least one (possibly empty) part; adjacent separators yield empty parts. -/
def pySplitSep (sep : Char) : Str → List Str
  | [] => [[]]
  | c :: cs =>
    if c = sep then [] :: pySplitSep sep cs
    else
      match pySplitSep sep cs with
      | [] => [[c]]
      | f :: r => (c :: f) :: r

/-- Python `str.split(',')`, the delimiter split used throughout the sources. -/
def pySplit (s : Str) : List Str := pySplitSep ',' s

/-- Python `sep.join(parts)` for the comma separator. -/
def pyJoin : List Str → Str
  | [] => []
  | [p] => p
  | p :: ps => p ++ ',' :: pyJoin ps

/-- One piece of a search pattern: a digit-class character or a literal
character. Fixed keyword substrings are patterns of literal pieces. -/
inductive PatPiece where
  | digit : PatPiece
  | ch (c : Char) : PatPiece
deriving DecidableEq

/-- Does a pattern piece match one character? -/
def pieceMatch : PatPiece → Char → Bool
  | .digit, c => isDigitChar c
  | .ch a, c => a == c

/-- Prefix match of a pattern against a string. -/
def matchP : List PatPiece → Str → Bool
  | [], _ => true
  | _ :: _, [] => false
  | p :: ps, c :: cs => pieceMatch p c && matchP ps cs

/-- Substring search (`re.search` on the fixed patterns, and Python's
substring operator for the keyword case). -/
def containsP (pat : List PatPiece) : Str → Bool
  | [] => matchP pat []
  | c :: cs => matchP pat (c :: cs) || containsP pat cs

/-- Literal substring pattern built from a string. -/
def litPat (s : String) : List PatPiece := s.data.map PatPiece.ch


/-!
Datetime model: `datetime.strptime` restricted to the seven fixed format
strings of `repair_date_field`, and `datetime.strftime` for the one output
format. CPython's `_strptime` compiles each directive to a regex:
`%Y ↦ \d\d\d\d`, `%m ↦ 1[0-2]|0[1-9]|[1-9]`, `%d ↦ 3[01]|[12]\d|0[1-9]|[1-9]`,
`%H ↦ 2[0-3]|[0-1]\d|\d`, `%M ↦ [0-5]\d|\d`, `%S ↦ 6[0-1]|[0-5]\d|\d`, and a
run of whitespace in the format to `\s+`; alternatives are tried left to
right (two-digit alternatives first), with backtracking, and the whole input
must be consumed. The `datetime` constructor then validates all component
ranges (year 1..9999, day against the month length, second ≤ 59). The parser
below mirrors exactly that: each two-digit numeric field prefers the
two-digit reading when its value is in the directive's regex range and the
rest of the input parses, falling back to the one-digit reading.
-/

/-- A wall-clock datetime as produced by `datetime.strptime`. -/
structure PyDateTime where
  year : Nat
  month : Nat
  day : Nat
  hour : Nat
  minute : Nat
  second : Nat
deriving DecidableEq, Repr

/-- Gregorian leap-year rule (as in Python's `calendar.isleap`). -/
def isLeapYear (y : Nat) : Bool :=
  (y % 4 == 0 && y % 100 != 0) || y % 400 == 0

/-- Number of days in a month of a given year. -/
def daysInMonth (y m : Nat) : Nat :=
  if m = 2 then (if isLeapYear y then 29 else 28)
  else if m = 4 ∨ m = 6 ∨ m = 9 ∨ m = 11 then 30
  else 31

/-- Validity as enforced by the `datetime` constructor. -/
def validDT (dt : PyDateTime) : Bool :=
  1 ≤ dt.year && dt.year ≤ 9999 &&
  1 ≤ dt.month && dt.month ≤ 12 &&
  1 ≤ dt.day && dt.day ≤ daysInMonth dt.year dt.month &&
  dt.hour ≤ 23 && dt.minute ≤ 59 && dt.second ≤ 59

/-- Two-digit zero-padded decimal rendering (`%m`, `%d`, `%H`, `%M`, `%S`). -/
def pad2 (n : Nat) : Str := [digitChar (n / 10), digitChar (n % 10)]

/-- Four-digit zero-padded decimal rendering (`%Y`). -/
def pad4 (n : Nat) : Str :=
  [digitChar (n / 1000), digitChar (n / 100 % 10),
   digitChar (n / 10 % 10), digitChar (n % 10)]

/-- The standard output format `%Y-%m-%d %H:%M:%S` of `strftime`. -/
def formatStd (dt : PyDateTime) : Str :=
  pad4 dt.year ++ '-' ::
    (pad2 dt.month ++ '-' ::
      (pad2 dt.day ++ ' ' ::
        (pad2 dt.hour ++ ':' ::
          (pad2 dt.minute ++ ':' :: pad2 dt.second))))

/-- One directive or literal of a `strptime` format string. `wsp` is a
whitespace run in the format (matching one or more whitespace characters). -/
inductive FmtItem where
  | lit (c : Char)
  | wsp
  | year
  | month
  | day
  | hour
  | minute
  | second
deriving DecidableEq

/-- Value range accepted by the regex of each two-digit numeric directive. -/
def fieldRange : FmtItem → Nat → Bool
  | .month, v => 1 ≤ v && v ≤ 12
  | .day, v => 1 ≤ v && v ≤ 31
  | .hour, v => v ≤ 23
  | .minute, v => v ≤ 59
  | .second, v => v ≤ 61
  | _, _ => false

/-- Store a parsed numeric directive value in the accumulator. -/
def setField : FmtItem → Nat → PyDateTime → PyDateTime
  | .month, v, dt => { dt with month := v }
  | .day, v, dt => { dt with day := v }
  | .hour, v, dt => { dt with hour := v }
  | .minute, v, dt => { dt with minute := v }
  | .second, v, dt => { dt with second := v }
  | _, _, dt => dt

/-- Matching step shared by the five two-digit numeric directives: prefer
the two-digit reading when both characters are digits, the value lies in the
directive's regex range and the rest of the input parses; otherwise fall
back to the one-digit reading (regex alternation with backtracking). -/
def parse2dig (fr : Nat → Bool) (st : Nat → PyDateTime → PyDateTime)
    (next : Str → PyDateTime → Option PyDateTime) (s : Str)
    (acc : PyDateTime) : Option PyDateTime :=
  match s with
  | a :: b :: s2 =>
    if isDigitChar a && isDigitChar b && fr (digVal a * 10 + digVal b) then
      match next s2 (st (digVal a * 10 + digVal b) acc) with
      | some r => some r
      | none =>
        if isDigitChar a && fr (digVal a) then
          next (b :: s2) (st (digVal a) acc)
        else none
    else
      if isDigitChar a && fr (digVal a) then
        next (b :: s2) (st (digVal a) acc)
      else none
  | [a] =>
    if isDigitChar a && fr (digVal a) then next [] (st (digVal a) acc)
    else none
  | [] => none

/-- Regex-style matcher for a format against an input, with full-input
consumption and the two-digit-preferred backtracking described above. -/
def parseItems : List FmtItem → Str → PyDateTime → Option PyDateTime
  | [], s, acc => if s.isEmpty then some acc else none
  | .lit c :: rest, s, acc =>
    match s with
    | c2 :: s2 => if c2 = c then parseItems rest s2 acc else none
    | [] => none
  | .wsp :: rest, s, acc =>
    match s with
    | a :: tail =>
      if isPySpace a then parseItems rest (tail.dropWhile isPySpace) acc
      else none
    | [] => none
  | .year :: rest, s, acc =>
    match s with
    | a :: b :: c :: d :: s2 =>
      if isDigitChar a && isDigitChar b && isDigitChar c && isDigitChar d then
        parseItems rest s2
          { acc with
            year := ((digVal a * 10 + digVal b) * 10 + digVal c) * 10 + digVal d }
      else none
    | _ => none
  | .month :: rest, s, acc =>
    parse2dig (fieldRange .month) (setField .month) (parseItems rest) s acc
  | .day :: rest, s, acc =>
    parse2dig (fieldRange .day) (setField .day) (parseItems rest) s acc
  | .hour :: rest, s, acc =>
    parse2dig (fieldRange .hour) (setField .hour) (parseItems rest) s acc
  | .minute :: rest, s, acc =>
    parse2dig (fieldRange .minute) (setField .minute) (parseItems rest) s acc
  | .second :: rest, s, acc =>
    parse2dig (fieldRange .second) (setField .second) (parseItems rest) s acc

/-- The `datetime.strptime` of one fixed format: regex match followed by the
`datetime` constructor's range validation. -/
def strptimeFmt (items : List FmtItem) (s : Str) : Option PyDateTime :=
  match parseItems items s ⟨1900, 1, 1, 0, 0, 0⟩ with
  | some dt => if validDT dt then some dt else none
  | none => none

/-- Format `%Y-%m-%d %H:%M:%S`. -/
def fmtStd : List FmtItem :=
  [.year, .lit '-', .month, .lit '-', .day, .wsp, .hour, .lit ':', .minute,
   .lit ':', .second]

/-- Format `%d/%m/%Y %H:%M:%S`. -/
def fmtDMYslash : List FmtItem :=
  [.day, .lit '/', .month, .lit '/', .year, .wsp, .hour, .lit ':', .minute,
   .lit ':', .second]

/-- Format `%m/%d/%Y %H:%M:%S`. -/
def fmtMDYslash : List FmtItem :=
  [.month, .lit '/', .day, .lit '/', .year, .wsp, .hour, .lit ':', .minute,
   .lit ':', .second]

/-- Format `%Y/%m/%d %H:%M:%S`. -/
def fmtYMDslash : List FmtItem :=
  [.year, .lit '/', .month, .lit '/', .day, .wsp, .hour, .lit ':', .minute,
   .lit ':', .second]

/-- Format `%d-%m-%Y %H:%M:%S`. -/
def fmtDMYdash : List FmtItem :=
  [.day, .lit '-', .month, .lit '-', .year, .wsp, .hour, .lit ':', .minute,
   .lit ':', .second]

/-- Format `%m-%d-%Y %H:%M:%S`. -/
def fmtMDYdash : List FmtItem :=
  [.month, .lit '-', .day, .lit '-', .year, .wsp, .hour, .lit ':', .minute,
   .lit ':', .second]

/-- Format `%Y%m%d%H%M%S`. -/
def fmtCompact : List FmtItem :=
  [.year, .month, .day, .hour, .minute, .second]

/-- The `formats_to_try` list of `repair_date_field`, in source order. -/
def formatsToTry : List (List FmtItem) :=
  [fmtStd, fmtDMYslash, fmtMDYslash, fmtYMDslash, fmtDMYdash, fmtMDYdash,
   fmtCompact]

/-- The format loop of `repair_date_field` case 3: first successful parse
wins (a `ValueError` advances to the next format). -/
def tryFormats (s : Str) : Option PyDateTime :=
  go formatsToTry
where
  go : List (List FmtItem) → Option PyDateTime
    | [] => none
    | f :: r =>
      match strptimeFmt f s with
      | some dt => some dt
      | none => go r


/-!
Embedding of `depurador_csv.py`.

`datetime.now().strftime('%Y-%m-%d %H:%M:%S')` is modelled by an explicit
parameter `now : Str`: the functions below are parametric in the wall-clock
reading, and the theorems hypothesise that `now` is the standard rendering of
some valid datetime, which `strftime` guarantees.
-/

/-- The `non_date_values` sentinel list of `repair_date_field`. -/
def nonDateValues : List Str :=
  [str "WPA2", str "WPA", str "WEP", str "OPN", str "OPEN", str "UNKNOWN",
   str "N/A", str "NULL"]

/-- The function `repair_date_field` of `depurador_csv.py` (lines 183-224):
empty and whitespace-only values are returned verbatim; a stripped value
case-insensitively equal to `OPEN` or belonging to the sentinel list becomes
the current timestamp; otherwise the seven formats are tried in order and the
first parse is re-emitted in the standard format; failing that, the stripped
value (`value_str`) is returned. -/
def repairDateField (now value : Str) : Str :=
  if value = [] ∨ pyStrip value = [] then value
  else
    let vs := pyStrip value
    if pyUpper vs = str "OPEN" then now
    else if pyUpper vs ∈ nonDateValues then now
    else
      match tryFormats vs with
      | some dt => formatStd dt
      | none => vs

/-- The four regex patterns of `looks_like_date` (`\d{4}-\d{2}-\d{2}` and so
on), searched as substrings by `re.search`. -/
def datePatterns : List (List PatPiece) :=
  [[.digit, .digit, .digit, .digit, .ch '-', .digit, .digit, .ch '-', .digit,
    .digit],
   [.digit, .digit, .ch '/', .digit, .digit, .ch '/', .digit, .digit, .digit,
    .digit],
   [.digit, .digit, .ch '-', .digit, .digit, .ch '-', .digit, .digit, .digit,
    .digit],
   [.digit, .digit, .digit, .digit, .ch '/', .digit, .digit, .ch '/', .digit,
    .digit]]

/-- The `date_keywords` list of `looks_like_date`. -/
def dateKeywords : List (List PatPiece) :=
  [litPat "2024", litPat "2025", litPat "2023", litPat "jan", litPat "feb",
   litPat "mar", litPat "apr", litPat "may", litPat "jun", litPat "jul",
   litPat "aug", litPat "sep", litPat "oct", litPat "nov", litPat "dec",
   litPat "am", litPat "pm"]

/-- The function `looks_like_date` of `depurador_csv.py` (lines 74-103). -/
def looksLikeDate (value : Str) : Bool :=
  if value = [] ∨ pyStrip value = [] then false
  else
    let vs := pyStrip value
    datePatterns.any (fun p => containsP p vs) ||
      dateKeywords.any (fun k => containsP k (pyLower vs))

/-- The header keywords that flag a column as date-bearing. -/
def headerDateKeywords : List (List PatPiece) :=
  [litPat "TIME", litPat "DATE", litPat "SEEN", litPat "FIRST", litPat "LAST"]

/-- Pair each list element with its index, starting at `k` (the functional
rendering of Python's `enumerate`). -/
def enumFrom (k : Nat) : List α → List (Nat × α)
  | [] => []
  | a :: as => (k, a) :: enumFrom (k + 1) as

/-- Map with the element index available, starting at `k`. -/
def mapWithIndex (f : Nat → α → β) : Nat → List α → List β
  | _, [] => []
  | k, a :: as => f k a :: mapWithIndex f (k + 1) as

/-- Date-column detection of `analyze_date_problems` (lines 33-35): the
enumerated headers whose uppercased name contains a date keyword. -/
def dateColumnsOf (headers : List Str) : List (Nat × Str) :=
  (enumFrom 0 headers).filter
    (fun ic => headerDateKeywords.any (fun k => containsP k (pyUpper ic.2)))

/-- One diagnostic record of the anomaly report. -/
structure Anomaly where
  line : Nat
  column : Str
  value : Str
deriving DecidableEq

/-- Result of `analyze_date_problems`: `short` models the early
`return None, []` (a 2-tuple) taken when the file has fewer than two lines;
`ok` models the normal 3-tuple `headers, problematic_lines, date_columns`.
(The function's `except` arm, which returns the 3-tuple `None, [], []`, is
unreachable here because file reading is already abstracted into `lines`.) -/
inductive AnalyzeResult where
  | short
  | ok (headers : List Str) (problematic : List Anomaly)
      (dateColumns : List (Nat × Str))
deriving DecidableEq

/-- The anomaly sampling loop of `analyze_date_problems` (lines 43-62): for
every sampled line (the first ten data lines, stopping as soon as the 1-based
line number `3+i` reaches `len(lines)`), each date-column value that does not
look like a date is recorded. -/
def sampleAnomalies (lines : List Str) (dcols : List (Nat × Str)) :
    List Anomaly :=
  let sampled := ((lines.drop 2).take 10).take (lines.length - 3)
  (enumFrom 3 sampled).flatMap fun il =>
    let fields := pySplit (pyStrip il.2)
    dcols.filterMap fun cc =>
      if h : cc.1 < fields.length then
        let v := fields.get ⟨cc.1, h⟩
        if looksLikeDate v then none
        else some ⟨il.1, cc.2, v⟩
      else none

/-- The function `analyze_date_problems` of `depurador_csv.py` (lines 8-72),
with the prints modelled as the returned data. -/
def analyzeDateProblems (lines : List Str) : AnalyzeResult :=
  if lines.length < 2 then .short
  else
    let headers := pySplit (pyStrip (lines.getD 1 []))
    let dcols := dateColumnsOf headers
    .ok headers (sampleAnomalies lines dcols) dcols

/-- Uncaught Python exceptions of the modelled fragments. -/
inductive PyErr where
  | valueError
  | keyError
deriving DecidableEq

instance {ε α : Type} [DecidableEq ε] [DecidableEq α] :
    DecidableEq (Except ε α) := fun a b =>
  match a, b with
  | .error e1, .error e2 =>
    if h : e1 = e2 then .isTrue (by rw [h])
    else .isFalse (fun hc => h (by cases hc; rfl))
  | .ok v1, .ok v2 =>
    if h : v1 = v2 then .isTrue (by rw [h])
    else .isFalse (fun hc => h (by cases hc; rfl))
  | .error _, .ok _ => .isFalse (fun hc => by cases hc)
  | .ok _, .error _ => .isFalse (fun hc => by cases hc)

/-- The per-data-line body of the repair loop in `repair_date_issues`
(lines 140-157): split the stripped line on commas, repair every field whose
index is a date-column index (replacing in place — the indices are pairwise
distinct, so the order of the inner loop is immaterial), and re-join. -/
def repairLine (now : Str) (idxs : List Nat) (line : Str) : Str :=
  let fields := pySplit (pyStrip line)
  pyJoin (mapWithIndex
    (fun i f => if i ∈ idxs then repairDateField now f else f) 0 fields)

/-- Number of `corrections_made` increments contributed by one data line:
date-column fields actually changed by `repair_date_field`. -/
def lineCorrections (now : Str) (idxs : List Nat) (line : Str) : Nat :=
  let fields := pySplit (pyStrip line)
  (enumFrom 0 fields).countP
    (fun p => decide (p.1 ∈ idxs) && decide (repairDateField now p.2 ≠ p.2))

/-- The function `repair_date_issues` of `depurador_csv.py` (lines 105-181).
It first calls `analyze_date_problems` and unpacks the result into THREE
variables (line 115, outside the `try` block): when the file has fewer than
two lines the analysis returns the 2-tuple `(None, [])` and the unpacking
raises an uncaught `ValueError`. Otherwise the first two lines are kept
(stripped) and every data line is repaired; the written file content and the
`corrections_made` counter are the result. -/
def repairDateIssues (now : Str) (lines : List Str) :
    Except PyErr (List Str × Nat) :=
  match analyzeDateProblems lines with
  | .short => .error .valueError
  | .ok _ _ dcols =>
    let idxs := dcols.map Prod.fst
    let out := mapWithIndex
      (fun ln l => if ln < 2 then pyStrip l else repairLine now idxs l) 0 lines
    let cnt := ((lines.drop 2).map (lineCorrections now idxs)).sum
    .ok (out, cnt)

/-- The date-column index list a file's header line induces (the
`date_column_indices` of `repair_date_issues`). -/
def dcolIdxs (lines : List Str) : List Nat :=
  (dateColumnsOf (pySplit (pyStrip (lines.getD 1 [])))).map Prod.fst

/-!
Embedding of `Analisis_Interferencias.py`.

A pandas DataFrame is modelled as a header list plus a list of rows of cells;
a cell is a raw string, a number (rational, covering pandas int64/float64
values), or missing (`NaN`). `pd.to_numeric(errors='coerce')` is modelled as
parsing an optionally-signed decimal numeral with an optional fractional
part, surrounding whitespace allowed; unparsable values become missing. The
four pandas read strategies of `robust_csv_loader` are external library calls
and are modelled by their outcomes (a parameter list: `some df` for a
strategy that succeeds, `none` for one that raises).
-/

/-- A decimal number `mant / 10 ^ exp` (the numeric values this repository
reads are decimal literals; keeping them unnormalised keeps every operation
kernel-computable). -/
structure DecNum where
  mant : Int
  exp : Nat
deriving DecidableEq

/-- Semantic value of a decimal number. -/
def DecNum.toRat (d : DecNum) : ℚ := (d.mant : ℚ) / (10 : ℚ) ^ d.exp

/-- Order on decimal numbers (cross-multiplied integer comparison). -/
def DecNum.le (a b : DecNum) : Bool :=
  a.mant * (10 : Int) ^ b.exp ≤ b.mant * (10 : Int) ^ a.exp

/-- Embed an integer. -/
def DecNum.ofInt (n : Int) : DecNum := ⟨n, 0⟩

/-- One DataFrame cell. -/
inductive Cell where
  | s (v : Str)
  | num (q : DecNum)
  | na
deriving DecidableEq

/-- A DataFrame: column names and rows of cells (each row has one cell per
column). -/
structure Df where
  cols : List Str
  rows : List (List Cell)
deriving DecidableEq

/-- Index of the first column with the given name (pandas column lookup). -/
def colIdx (cols : List Str) (name : Str) : Option Nat :=
  match cols with
  | [] => none
  | c :: cs => if c = name then some 0 else (colIdx cs name).map (· + 1)

/-- Natural-number value of a digit string. -/
def digitsVal : Str → Nat
  | [] => 0
  | c :: cs => digitsVal cs + digVal c * 10 ^ cs.length

/-- Parse an unsigned decimal numeral, with an optional single point
(`"12"`, `"12.5"`, `"12."`, `".5"`; at least one digit overall). -/
def parseUnsigned (s : Str) : Option DecNum :=
  match pySplitSep '.' s with
  | [a] =>
    if a ≠ [] ∧ a.all isDigitChar then some ⟨(digitsVal a : Int), 0⟩ else none
  | [a, b] =>
    if (a ++ b) ≠ [] ∧ a.all isDigitChar ∧ b.all isDigitChar then
      some ⟨(digitsVal (a ++ b) : Int), b.length⟩
    else none
  | _ => none

/-- Numeric-literal parsing of `pd.to_numeric(errors='coerce')`: surrounding
whitespace stripped, optional sign, decimal numeral (scientific notation and
special floats are outside the values this repository handles and are not
modelled). -/
def parseNumeric (s : Str) : Option DecNum :=
  match pyStrip s with
  | '+' :: rest => parseUnsigned rest
  | '-' :: rest => (parseUnsigned rest).map (fun d => ⟨-d.mant, d.exp⟩)
  | t => parseUnsigned t

/-- Cell-level `pd.to_numeric(errors='coerce')`: numbers stay, missing stays
missing, strings are parsed or become missing. -/
def toNumericCell : Cell → Cell
  | .s v => match parseNumeric v with
            | some q => .num q
            | none => .na
  | .num q => .num q
  | .na => .na

/-- Is a cell missing (`isna`)? -/
def isNaCell : Cell → Bool
  | .na => true
  | _ => false

/-- Read a row cell by column index (missing when out of range). -/
def cellAt (r : List Cell) (i : Nat) : Cell := r.getD i .na

/-- Replace one column of every row by a function of the old cell
(`df[c] = f(df[c])`). -/
def mapCol (df : Df) (i : Nat) (f : Cell → Cell) : Df :=
  { df with rows := df.rows.map (fun r => r.set i (f (cellAt r i))) }


/-- Row normalisation of `manual_csv_loader` (lines 73-83): keep a row with
the expected field count, truncate a longer row, pad a shorter row with
missing markers (`np.nan`). -/
def fixRow (n : Nat) (fields : List Str) : List Cell :=
  if fields.length = n then fields.map Cell.s
  else if n < fields.length then (fields.take n).map Cell.s
  else fields.map Cell.s ++ List.replicate (n - fields.length) Cell.na

/-- The function `manual_csv_loader` of `Analisis_Interferencias.py`
(lines 49-91): headers from the second line, every later line normalised to
the expected column count; raises `ValueError` for files with fewer than two
lines. The `problematic_lines` counter (reported on line 88) is returned
alongside the DataFrame. -/
def manualCsvLoader (lines : List Str) : Except PyErr (Df × Nat) :=
  if lines.length < 2 then .error .valueError
  else
    let headers := pySplit (pyStrip (lines.getD 1 []))
    let n := headers.length
    let dataLines := lines.drop 2
    let rows := dataLines.map (fun l => fixRow n (pySplit (pyStrip l)))
    let problematic :=
      dataLines.countP (fun l => (pySplit (pyStrip l)).length ≠ n)
    .ok (⟨headers, rows⟩, problematic)

/-- Diagnostic counters printed by `clean_and_validate_data`, modelled as
returned values. -/
structure CleanDiag where
  missingCriticals : List Str
  rssiNulos : Nat
  channelNulos : Nat
  removedRows : Nat
deriving DecidableEq

/-- The function `clean_and_validate_data` of `Analisis_Interferencias.py`
(lines 93-133): warn about absent critical columns, coerce `RSSI` and
`Channel` to numeric where present (failures become missing, counted), then
`dropna(subset=['RSSI','Channel'])` — which raises `KeyError` when either
subset column is absent from the frame. -/
def cleanAndValidateData (df : Df) : Except PyErr (CleanDiag × Df) :=
  let criticalColumns := [str "SSID", str "RSSI", str "Channel"]
  let missing := criticalColumns.filter (fun c => decide (c ∉ df.cols))
  let step1 :=
    match colIdx df.cols (str "RSSI") with
    | some i => mapCol df i toNumericCell
    | none => df
  let rssiNulos :=
    match colIdx df.cols (str "RSSI") with
    | some i => step1.rows.countP (fun r => isNaCell (cellAt r i))
    | none => 0
  let step2 :=
    match colIdx df.cols (str "Channel") with
    | some i => mapCol step1 i toNumericCell
    | none => step1
  let channelNulos :=
    match colIdx df.cols (str "Channel") with
    | some i => step2.rows.countP (fun r => isNaCell (cellAt r i))
    | none => 0
  match colIdx df.cols (str "RSSI"), colIdx df.cols (str "Channel") with
  | some i, some j =>
    let kept := step2.rows.filter
      (fun r => !isNaCell (cellAt r i) && !isNaCell (cellAt r j))
    .ok (⟨missing, rssiNulos, channelNulos, step2.rows.length - kept.length⟩,
        ⟨step2.cols, kept⟩)
  | _, _ => .error .keyError

/-- The strategy loop of `robust_csv_loader` (lines 30-38): return the first
strategy outcome that is a DataFrame. -/
def firstSome : List (Option Df) → Option Df
  | [] => none
  | none :: rest => firstSome rest
  | some df :: _ => some df

/-- The function `robust_csv_loader` of `Analisis_Interferencias.py`
(lines 10-47). The four pandas strategies are external library calls,
abstracted by their outcomes `strategyResults`; when every strategy fails the
manual line-by-line loader runs, and its own failure is caught and turned
into `None`. -/
def robustCsvLoader (strategyResults : List (Option Df)) (lines : List Str) :
    Option Df :=
  match firstSome strategyResults with
  | some df => some df
  | none =>
    match manualCsvLoader lines with
    | .ok (df, _) => some df
    | .error _ => none

/-- The `classify_signal` closure of `analyze_wifi_interference`
(lines 263-273). -/
def classifySignal (rssi : DecNum) : Str :=
  if DecNum.le (.ofInt (-50)) rssi then str "Excelente"
  else if DecNum.le (.ofInt (-60)) rssi then str "Buena"
  else if DecNum.le (.ofInt (-70)) rssi then str "Regular"
  else if DecNum.le (.ofInt (-80)) rssi then str "Débil"
  else str "Muy débil"

/-- Quality cell derived from an RSSI cell (after cleaning, RSSI cells are
numeric). -/
def calidadCell : Cell → Cell
  | .num q => .s (classifySignal q)
  | _ => .s (str "Muy débil")

/-- The function `analyze_wifi_interference` of `Analisis_Interferencias.py`
(lines 236-444), modelled to its returned value: load robustly (`None` on
total failure), clean inside `try` (an exception there is caught and yields
`None`), return `None` on an empty cleaned frame, then add the `Calidad`
column and access `df['SSID']` (line 284) outside any `try` — an uncaught
`KeyError` when `SSID` is absent. The later reporting and plotting steps run
inside their own `try` blocks and do not affect the returned frame. -/
def analyzeWifiInterference (strategyResults : List (Option Df))
    (lines : List Str) : Except PyErr (Option Df) :=
  match robustCsvLoader strategyResults lines with
  | none => .ok none
  | some df =>
    match cleanAndValidateData df with
    | .error _ => .ok none
    | .ok (_, df2) =>
      if df2.rows.length = 0 then .ok none
      else
        match colIdx df2.cols (str "RSSI") with
        | none => .ok none
        | some i =>
          let df3 : Df :=
            ⟨df2.cols ++ [str "Calidad"],
             df2.rows.map (fun r => r ++ [calidadCell (cellAt r i)])⟩
          if str "SSID" ∈ df3.cols then .ok (some df3)
          else .error .keyError

/-!
Embedding of `WiFi_Wardriving.py`, `WardrivingAnalyzer.cargar_datos`:
the column-name cleanup, alias mapping and data-preparation steps
(lines 70-125), operating on the frame produced by the pandas read attempts.
`pd.to_datetime(errors='coerce')` is an external library call not otherwise
used by any claim; it is abstracted as a cell-to-cell parameter `toDT`. -/

/-- The `columnas_requeridas` list (lines 74-75). -/
def columnasRequeridas : List Str :=
  [str "SSID", str "FirstSeen", str "Channel", str "Frequency", str "RSSI",
   str "CurrentLatitude", str "CurrentLongitude", str "AuthMode"]

/-- The `mapeo_columnas` alias table (lines 83-92). -/
def mapeoColumnas : List (Str × List Str) :=
  [(str "SSID", [str "SSID", str "ssid", str "Ssid"]),
   (str "FirstSeen",
    [str "FirstSeen", str "First seen", str "firstseen", str "Timestamp"]),
   (str "Channel", [str "Channel", str "channel", str "CH"]),
   (str "Frequency", [str "Frequency", str "frequency", str "Freq"]),
   (str "RSSI", [str "RSSI", str "rssi", str "Signal"]),
   (str "CurrentLatitude",
    [str "CurrentLatitude", str "Latitude", str "Lat", str "latitude"]),
   (str "CurrentLongitude",
    [str "CurrentLongitude", str "Longitude", str "Lon", str "longitude"]),
   (str "AuthMode",
    [str "AuthMode", str "Authentication", str "Encryption", str "auth"])]

/-- Alias candidates for one canonical name (`mapeo_columnas.get(col, [])`). -/
def aliasesFor (col : Str) : List Str :=
  match mapeoColumnas.find? (fun p => p.1 = col) with
  | some p => p.2
  | none => []

/-- Column assignment `df[name] = rows.map f`: replace the column in place
when present, append it otherwise. -/
def dfSetColFn (df : Df) (name : Str) (f : List Cell → Cell) : Df :=
  match colIdx df.cols name with
  | some i => { df with rows := df.rows.map (fun r => r.set i (f r)) }
  | none =>
    ⟨df.cols ++ [name], df.rows.map (fun r => r ++ [f r])⟩

/-- One iteration of the alias-mapping loop (lines 94-99): for a required
column absent from the observed headers, copy the first present alias
column into it (`break` after the first hit). -/
def aliasStep (df : Df) (col : Str) : Df :=
  match (aliasesFor col).find? (fun cand => decide (cand ∈ df.cols)) with
  | some cand =>
    match colIdx df.cols cand with
    | some i => dfSetColFn df col (fun r => cellAt r i)
    | none => df
  | none => df

/-- The alias-mapping loop over the missing required columns (computed once,
as in the source, before the loop runs). -/
def applyAliasMapping (df0 : Df) : Df :=
  let faltantes := columnasRequeridas.filter (fun c => decide (c ∉ df0.cols))
  faltantes.foldl aliasStep df0

/-- Cell-level `fillna(0)`. -/
def fillna0Cell : Cell → Cell
  | .na => .num (.ofInt 0)
  | c => c

/-- Cell-level `astype(int)`: Python `int()` truncates toward zero. -/
def astypeIntCell : Cell → Cell
  | .num d => .num (.ofInt (d.mant.tdiv ((10 : Int) ^ d.exp)))
  | c => c

/-- The `to_numeric(...).fillna(0).astype(int)` step applied to `Channel`
and `Frequency` (lines 106-110), guarded by the column's presence. -/
def numFillStep (name : Str) (df : Df) : Df :=
  match colIdx df.cols name with
  | some i =>
    mapCol df i (fun c => astypeIntCell (fillna0Cell (toNumericCell c)))
  | none => df

/-- The plain `to_numeric` coercion applied to `RSSI` (lines 112-113),
guarded by the column's presence. -/
def numStep (name : Str) (df : Df) : Df :=
  match colIdx df.cols name with
  | some i => mapCol df i toNumericCell
  | none => df

/-- The coordinate step (lines 116-122): coerce and drop the rows whose
coordinate is missing, guarded by the column's presence. -/
def coordStep (name : Str) (df : Df) : Df :=
  match colIdx df.cols name with
  | some i =>
    let m := mapCol df i toNumericCell
    ⟨m.cols, m.rows.filter (fun r => !isNaCell (cellAt r i))⟩
  | none => df

/-- The data-preparation part of `WardrivingAnalyzer.cargar_datos`
(lines 70-125): strip column names, map aliases, derive `Timestamp` from
`FirstSeen` (a missing `FirstSeen` raises `KeyError`, caught on line 127 so
that the load reports failure), coerce `Channel` and `Frequency` with
`fillna(0).astype(int)`, coerce `RSSI`, then coerce each coordinate column
and drop the rows missing it — each numeric step guarded by the column's
presence. -/
def cargarDatosPrepare (toDT : Cell → Cell) (df0 : Df) : Except PyErr Df :=
  match colIdx (applyAliasMapping ⟨df0.cols.map pyStrip, df0.rows⟩).cols
      (str "FirstSeen") with
  | none => .error .keyError
  | some fsIdx =>
    .ok (coordStep (str "CurrentLongitude")
      (coordStep (str "CurrentLatitude")
        (numStep (str "RSSI")
          (numFillStep (str "Frequency")
            (numFillStep (str "Channel")
              (dfSetColFn (applyAliasMapping ⟨df0.cols.map pyStrip, df0.rows⟩)
                (str "Timestamp") (fun r => toDT (cellAt r fsIdx))))))))

/-!
Spec-side definitions. These restate the specification's wording (for
refinement comparisons with the code-side definitions above); they are the
only definitions here not translated from the source.
-/

/-- The specification's single sentinel set (section 4.6, rule 1). -/
def sentinelSet : List Str :=
  [str "WPA2", str "WPA", str "WEP", str "OPN", str "OPEN", str "UNKNOWN",
   str "N/A", str "NULL"]

/-- Per-field date repair as the specification's ordered rule list reads,
amended on its pass-through rule: empty/whitespace-only values are returned
verbatim, sentinel values (compared case-insensitively on the stripped
value) become the current timestamp, parseable values are normalised, and
every other value is returned stripped of surrounding whitespace. -/
def repairFieldSpec (now value : Str) : Str :=
  let vs := pyStrip value
  if vs = [] then value
  else if pyUpper vs ∈ sentinelSet then now
  else
    match tryFormats vs with
    | some dt => formatStd dt
    | none => vs

/-- Date-likeness as the specification words it for the anomaly classifier:
the value matches one of the four fixed patterns, or contains a year,
month-abbreviation or meridiem token case-insensitively. -/
def dateLikeSpec (v : Str) : Bool :=
  datePatterns.any (fun p => containsP p v) ||
    dateKeywords.any (fun k => containsP k (pyLower v))

/-- The end-to-end scenario file of specification section 8: a metadata
line, a header line with three columns, and 500 data rows of which 50 carry
two extra trailing fields and 25 distinct others have `Channel` equal to
`N/A`. -/
def scenarioFile : List Str :=
  str "WigleWifi-1.4 metadata" :: str "SSID,RSSI,Channel" ::
    (List.replicate 425 (str "net,-55,6") ++
     List.replicate 25 (str "net,-60,N/A") ++
     List.replicate 50 (str "net,-70,11,x,y"))

/-- The DataFrame the Manual Recovery parser produces on the scenario file:
500 rows, the 50 long rows truncated to the three expected fields. -/
def scenarioDf : Df :=
  ⟨[str "SSID", str "RSSI", str "Channel"],
   List.replicate 425 [Cell.s (str "net"), Cell.s (str "-55"), Cell.s (str "6")] ++
   List.replicate 25 [Cell.s (str "net"), Cell.s (str "-60"), Cell.s (str "N/A")] ++
   List.replicate 50 [Cell.s (str "net"), Cell.s (str "-70"), Cell.s (str "11")]⟩

/-- The canonical dataset after Type Coercion and the critical-field drop:
475 rows, the 25 rows with Channel `N/A` removed. -/
def scenarioClean : Df :=
  ⟨[str "SSID", str "RSSI", str "Channel"],
   List.replicate 425
     [Cell.s (str "net"), Cell.num ⟨-55, 0⟩, Cell.num ⟨6, 0⟩] ++
   List.replicate 50
     [Cell.s (str "net"), Cell.num ⟨-70, 0⟩, Cell.num ⟨11, 0⟩]⟩

/-- Example frame for the Type Coercion drop rule: one row with an
uncoercible RSSI, one fully numeric row. -/
def exampleCoercionDf : Df :=
  ⟨[str "SSID", str "RSSI", str "Channel"],
   [[Cell.s (str "x"), Cell.s (str "abc"), Cell.s (str "6")],
    [Cell.s (str "y"), Cell.s (str "-55"), Cell.s (str "11")]]⟩

/-- Geo-analysis input frame with no latitude column under any alias. -/
def geoNoLatDf : Df :=
  ⟨[str "SSID", str "FirstSeen", str "Channel", str "Frequency", str "RSSI",
    str "CurrentLongitude", str "AuthMode"],
   [[Cell.s (str "a"), Cell.s (str "t"), Cell.s (str "6"),
     Cell.s (str "2437"), Cell.s (str "-55"), Cell.s (str "-3.7"),
     Cell.s (str "WPA2")]]⟩

/-- The frame `cargar_datos` prepares from `geoNoLatDf`: the load reports
success although every row is missing `CurrentLatitude` entirely. -/
def geoNoLatOut : Df :=
  ⟨[str "SSID", str "FirstSeen", str "Channel", str "Frequency", str "RSSI",
    str "CurrentLongitude", str "AuthMode", str "Timestamp"],
   [[Cell.s (str "a"), Cell.s (str "t"), Cell.num ⟨6, 0⟩,
     Cell.num ⟨2437, 0⟩, Cell.num ⟨-55, 0⟩, Cell.num ⟨-37, 1⟩,
     Cell.s (str "WPA2"), Cell.na]]⟩

/-- Geo-analysis input frame whose `Channel` and `Frequency` values are both
uncoercible but whose coordinates are valid. -/
def geoNaChanDf : Df :=
  ⟨[str "SSID", str "FirstSeen", str "Channel", str "Frequency", str "RSSI",
    str "CurrentLatitude", str "CurrentLongitude", str "AuthMode"],
   [[Cell.s (str "a"), Cell.s (str "t"), Cell.s (str "N/A"),
     Cell.s (str "unknown"), Cell.s (str "-55"), Cell.s (str "40.1"),
     Cell.s (str "-3.7"), Cell.s (str "WPA2")]]⟩

/-- The frame `cargar_datos` prepares from `geoNaChanDf`: the row is kept
and both its `Channel` and its `Frequency` become the integer 0. -/
def geoNaChanOut : Df :=
  ⟨[str "SSID", str "FirstSeen", str "Channel", str "Frequency", str "RSSI",
    str "CurrentLatitude", str "CurrentLongitude", str "AuthMode",
    str "Timestamp"],
   [[Cell.s (str "a"), Cell.s (str "t"), Cell.num ⟨0, 0⟩,
     Cell.num ⟨0, 0⟩, Cell.num ⟨-55, 0⟩, Cell.num ⟨401, 1⟩,
     Cell.num ⟨-37, 1⟩, Cell.s (str "WPA2"), Cell.na]]⟩

/-- Output of the whole-file date repair on the three-line witness file. -/
def witnessRepairedFile : List Str :=
  [str "meta", str "SSID,FirstSeen", str "a,2025-06-01 12:00:00"]

/-!
Character-class and strip lemmas.
-/

/-- Leading-edge cleanliness: the first character, if any, is not
whitespace. -/
def noLeadB : Str → Bool
  | [] => true
  | c :: _ => !isPySpace c

/-- Trailing-edge cleanliness: the last character, if any, is not
whitespace. -/
def noTrailB (l : Str) : Bool := noLeadB l.reverse

/-- A pattern piece that matches only non-whitespace characters. -/
def pieceNoWSB : PatPiece → Bool
  | .digit => true
  | .ch a => !isPySpace a

/-- Rectangular frame: every row has one cell per column (pandas maintains
this invariant for every frame it hands out). -/
def dfWF (df : Df) : Prop := ∀ r ∈ df.rows, r.length = df.cols.length
theorem isPySpace_digitChar (k : Nat) (hk : k < 10) :
    isPySpace (digitChar k) = false := by
  interval_cases k <;> decide

theorem isDigitChar_digitChar (k : Nat) (hk : k < 10) :
    isDigitChar (digitChar k) = true := by
  interval_cases k <;> decide

theorem digVal_digitChar (k : Nat) (hk : k < 10) : digVal (digitChar k) = k := by
  interval_cases k <;> decide

theorem isPySpace_of_isDigitChar (c : Char) (h : isDigitChar c = true) :
    isPySpace c = false := by
  simp only [isDigitChar, Bool.and_eq_true, decide_eq_true_eq] at h
  simp only [isPySpace, Bool.or_eq_false_iff, beq_eq_false_iff_ne, ne_eq]
  omega

theorem isPySpace_pyLowerChar (c : Char) :
    isPySpace (pyLowerChar c) = isPySpace c := by
  unfold pyLowerChar
  split <;> rfl

theorem dropWhile_dropWhile (p : Char → Bool) (l : Str) :
    (l.dropWhile p).dropWhile p = l.dropWhile p := by
  induction l with
  | nil => rfl
  | cons c cs ih =>
    by_cases h : p c
    · simp [List.dropWhile_cons, h, ih]
    · simp [List.dropWhile_cons, h]

theorem dropWhile_eq_self_of_noLeadB (l : Str) (h : noLeadB l = true) :
    l.dropWhile isPySpace = l := by
  cases l with
  | nil => rfl
  | cons c cs =>
    simp only [noLeadB, Bool.not_eq_true'] at h
    simp [List.dropWhile_cons, h]

theorem noLeadB_dropWhile (l : Str) :
    noLeadB (l.dropWhile isPySpace) = true := by
  induction l with
  | nil => rfl
  | cons c cs ih =>
    by_cases h : isPySpace c
    · simpa [List.dropWhile_cons, h] using ih
    · simp [List.dropWhile_cons, h, noLeadB]

theorem noLeadB_of_prefix (l a t : Str) (h : noLeadB l = true)
    (he : l = a ++ t) : noLeadB a = true := by
  cases a with
  | nil => rfl
  | cons c cs =>
    subst he
    simpa [noLeadB] using h

theorem rstripWS_reverse (l : Str) :
    (rstripWS l).reverse = l.reverse.dropWhile isPySpace := by
  simp [rstripWS]

theorem rstripWS_eq_self_of_noTrailB (l : Str) (h : noTrailB l = true) :
    rstripWS l = l := by
  unfold rstripWS
  rw [dropWhile_eq_self_of_noLeadB l.reverse h, List.reverse_reverse]

theorem noTrailB_rstripWS (l : Str) : noTrailB (rstripWS l) = true := by
  unfold noTrailB
  rw [rstripWS_reverse]
  exact noLeadB_dropWhile _

theorem rstripWS_prefix (l : Str) :
    ∃ t, l = rstripWS l ++ t ∧ ∀ c ∈ t, isPySpace c = true := by
  refine ⟨(l.reverse.takeWhile isPySpace).reverse, ?_, ?_⟩
  · calc l = l.reverse.reverse := l.reverse_reverse.symm
    _ = (l.reverse.takeWhile isPySpace ++ l.reverse.dropWhile isPySpace).reverse := by
        rw [List.takeWhile_append_dropWhile]
    _ = (l.reverse.dropWhile isPySpace).reverse ++
          (l.reverse.takeWhile isPySpace).reverse := by
        rw [List.reverse_append]
    _ = rstripWS l ++ (l.reverse.takeWhile isPySpace).reverse := rfl
  · intro c hc
    rw [List.mem_reverse] at hc
    exact List.mem_takeWhile_imp hc

theorem noLeadB_rstripWS_of (l : Str) (h : noLeadB l = true) :
    noLeadB (rstripWS l) = true := by
  obtain ⟨t, he, -⟩ := rstripWS_prefix l
  exact noLeadB_of_prefix l _ t h he

theorem rstripWS_idem (l : Str) : rstripWS (rstripWS l) = rstripWS l :=
  rstripWS_eq_self_of_noTrailB _ (noTrailB_rstripWS l)

theorem pyStrip_eq_self (l : Str) (h1 : noLeadB l = true)
    (h2 : noTrailB l = true) : pyStrip l = l := by
  unfold pyStrip
  rw [dropWhile_eq_self_of_noLeadB l h1, rstripWS_eq_self_of_noTrailB l h2]

theorem noLeadB_pyStrip (l : Str) : noLeadB (pyStrip l) = true :=
  noLeadB_rstripWS_of _ (noLeadB_dropWhile l)

theorem noTrailB_pyStrip (l : Str) : noTrailB (pyStrip l) = true :=
  noTrailB_rstripWS _

theorem pyStrip_idem (l : Str) : pyStrip (pyStrip l) = pyStrip l :=
  pyStrip_eq_self _ (noLeadB_pyStrip l) (noTrailB_pyStrip l)

theorem noLeadB_append_left (x y : Str) (hx : x ≠ []) :
    noLeadB (x ++ y) = noLeadB x := by
  cases x with
  | nil => exact absurd rfl hx
  | cons c cs => simp [noLeadB]

theorem noTrailB_append_right (a b : Str) (hb : b ≠ []) :
    noTrailB (a ++ b) = noTrailB b := by
  unfold noTrailB
  rw [List.reverse_append]
  exact noLeadB_append_left _ _ (by simpa using hb)

theorem noTrailB_cons (c : Char) (l : Str) (h : l ≠ []) :
    noTrailB (c :: l) = noTrailB l := by
  have : (c :: l : Str) = [c] ++ l := rfl
  rw [this, noTrailB_append_right _ _ h]

theorem pySplitSep_ne_nil (sep : Char) (s : Str) : pySplitSep sep s ≠ [] := by
  cases s with
  | nil => simp [pySplitSep]
  | cons c cs =>
    simp only [pySplitSep]
    split
    · simp
    · split <;> simp

theorem mem_pySplitSep_not_sep (sep : Char) (s : Str) :
    ∀ p ∈ pySplitSep sep s, sep ∉ p := by
  induction s with
  | nil =>
    intro p hp
    simp only [pySplitSep, List.mem_singleton] at hp
    subst hp
    simp
  | cons c cs ih =>
    intro p hp
    simp only [pySplitSep] at hp
    by_cases hc : c = sep
    · rw [if_pos hc] at hp
      rcases List.mem_cons.mp hp with h | h
      · subst h; simp
      · exact ih p h
    · rw [if_neg hc] at hp
      rcases hsplit : pySplitSep sep cs with _ | ⟨f, r⟩
      · exact absurd hsplit (pySplitSep_ne_nil sep cs)
      · rw [hsplit] at hp
        rcases List.mem_cons.mp hp with h | h
        · subst h
          intro hmem
          rcases List.mem_cons.mp hmem with h1 | h1
          · exact hc h1.symm
          · exact ih f (hsplit ▸ List.mem_cons_self f r) h1
        · exact ih p (hsplit ▸ List.mem_cons_of_mem f h)

theorem pySplitSep_eq_single (sep : Char) (s : Str) (h : sep ∉ s) :
    pySplitSep sep s = [s] := by
  induction s with
  | nil => rfl
  | cons c cs ih =>
    have hc : ¬ c = sep := fun hcc => h (hcc ▸ List.mem_cons_self c cs)
    have ih2 := ih (fun hm => h (List.mem_cons_of_mem c hm))
    simp only [pySplitSep, if_neg hc, ih2]

theorem pySplitSep_singleton (sep : Char) (s f : Str)
    (h : pySplitSep sep s = [f]) : f = s := by
  induction s generalizing f with
  | nil =>
    simp only [pySplitSep, List.cons.injEq] at h
    exact h.1.symm
  | cons c cs ih =>
    simp only [pySplitSep] at h
    by_cases hc : c = sep
    · rw [if_pos hc] at h
      simp only [List.cons.injEq] at h
      exact absurd h.2 (pySplitSep_ne_nil sep cs)
    · rw [if_neg hc] at h
      rcases hsplit : pySplitSep sep cs with _ | ⟨f2, r2⟩
      · exact absurd hsplit (pySplitSep_ne_nil sep cs)
      · rw [hsplit] at h
        simp only [List.cons.injEq] at h
        obtain ⟨hf, hr⟩ := h
        have : f2 = cs := ih f2 (by rw [hsplit, hr])
        rw [← hf, this]

theorem pySplitSep_append (sep : Char) (a t : Str) (h : sep ∉ a) :
    pySplitSep sep (a ++ sep :: t) = a :: pySplitSep sep t := by
  induction a with
  | nil => simp [pySplitSep]
  | cons c cs ih =>
    have hc : ¬ c = sep := fun hcc => h (hcc ▸ List.mem_cons_self c cs)
    have ih2 := ih (fun hm => h (List.mem_cons_of_mem c hm))
    simp only [List.cons_append, pySplitSep, if_neg hc, List.append_eq, ih2]

theorem pySplit_pyJoin (parts : List Str) (hne : parts ≠ [])
    (hcf : ∀ p ∈ parts, ',' ∉ p) : pySplit (pyJoin parts) = parts := by
  induction parts with
  | nil => exact absurd rfl hne
  | cons p ps ih =>
    cases ps with
    | nil => exact pySplitSep_eq_single ',' p (hcf p (List.mem_cons_self p []))
    | cons q rs =>
      have hj : pyJoin (p :: q :: rs) = p ++ ',' :: pyJoin (q :: rs) := rfl
      have h1 : pySplitSep ',' (p ++ ',' :: pyJoin (q :: rs)) =
          p :: pySplitSep ',' (pyJoin (q :: rs)) :=
        pySplitSep_append ',' p _ (hcf p (List.mem_cons_self p _))
      have h2 : pySplit (pyJoin (q :: rs)) = q :: rs :=
        ih (by simp) (fun x hx => hcf x (List.mem_cons_of_mem p hx))
      show pySplitSep ',' (pyJoin (p :: q :: rs)) = p :: q :: rs
      rw [hj, h1]
      exact congrArg (p :: ·) h2

theorem noLeadB_pySplit_head (s f : Str) (r : List Str)
    (hs : pySplit s = f :: r) (h : noLeadB s = true) : noLeadB f = true := by
  cases s with
  | nil =>
    simp only [pySplit, pySplitSep, List.cons.injEq] at hs
    rw [← hs.1]
    rfl
  | cons c cs =>
    simp only [pySplit, pySplitSep] at hs
    by_cases hc : c = ','
    · rw [if_pos hc] at hs
      simp only [List.cons.injEq] at hs
      rw [← hs.1]
      rfl
    · rw [if_neg hc] at hs
      rcases hsplit : pySplitSep ',' cs with _ | ⟨f2, r2⟩
      · exact absurd hsplit (pySplitSep_ne_nil ',' cs)
      · rw [hsplit] at hs
        simp only [List.cons.injEq] at hs
        rw [← hs.1]
        simpa [noLeadB] using h

theorem pySplit_getLast_suffix (s : Str) (p : Str)
    (hp : (pySplit s).getLast? = some p) : List.IsSuffix p s := by
  induction s generalizing p with
  | nil =>
    have h0 : p = [] := by simpa [pySplit, pySplitSep] using hp.symm
    subst h0
    exact List.nil_suffix
  | cons c cs ih =>
    simp only [pySplit, pySplitSep] at hp
    by_cases hc : c = ','
    · rw [if_pos hc] at hp
      rcases hsplit : pySplitSep ',' cs with _ | ⟨f, r⟩
      · exact absurd hsplit (pySplitSep_ne_nil ',' cs)
      · rw [hsplit, List.getLast?_cons_cons] at hp
        have : List.IsSuffix p cs := ih p (by rw [pySplit, hsplit]; exact hp)
        exact this.trans (List.suffix_cons c cs)
    · rw [if_neg hc] at hp
      rcases hsplit : pySplitSep ',' cs with _ | ⟨f, r⟩
      · exact absurd hsplit (pySplitSep_ne_nil ',' cs)
      · rw [hsplit] at hp
        cases r with
        | nil =>
          simp only [List.getLast?_singleton, Option.some.injEq] at hp
          have hf : f = cs := pySplitSep_singleton ',' cs f hsplit
          rw [← hp, hf]
        | cons r1 rs =>
          rw [List.getLast?_cons_cons] at hp
          have : List.IsSuffix p cs := by
            apply ih p
            rw [pySplit, hsplit, List.getLast?_cons_cons]
            exact hp
          exact this.trans (List.suffix_cons c cs)

theorem noLeadB_pyJoin (f : Str) (r : List Str) (h : noLeadB f = true) :
    noLeadB (pyJoin (f :: r)) = true := by
  cases r with
  | nil => exact h
  | cons q rs =>
    cases f with
    | nil => rfl
    | cons c cs => simpa [pyJoin, noLeadB] using h

theorem noTrailB_pyJoin (parts : List Str)
    (h : ∀ p, parts.getLast? = some p → noTrailB p = true) :
    noTrailB (pyJoin parts) = true := by
  induction parts with
  | nil => rfl
  | cons p ps ih =>
    cases ps with
    | nil => exact h p rfl
    | cons q rs =>
      have hj : pyJoin (p :: q :: rs) = p ++ ',' :: pyJoin (q :: rs) := rfl
      rw [hj, noTrailB_append_right _ _ (by simp)]
      rcases hJ : pyJoin (q :: rs) with _ | ⟨x, xs⟩
      · rfl
      · rw [← hJ, noTrailB_cons _ _ (by rw [hJ]; simp)]
        exact ih (fun p2 hp2 => h p2 (by rwa [List.getLast?_cons_cons]))

theorem pieceNoWS_of (p : PatPiece) (hp : pieceNoWSB p = true) (c : Char)
    (hm : pieceMatch p c = true) : isPySpace c = false := by
  cases p with
  | digit => exact isPySpace_of_isDigitChar c hm
  | ch a =>
    simp only [pieceMatch, beq_iff_eq] at hm
    subst hm
    simpa [pieceNoWSB] using hp

theorem matchP_false_of_ws (q : PatPiece) (qs : List PatPiece) (c : Char)
    (t : Str) (hq : pieceNoWSB q = true) (hc : isPySpace c = true) :
    matchP (q :: qs) (c :: t) = false := by
  simp only [matchP, Bool.and_eq_false_iff]
  left
  by_cases hm : pieceMatch q c = true
  · rw [pieceNoWS_of q hq c hm] at hc
    exact absurd hc (by simp)
  · simpa using hm

theorem containsP_dropWhile (pat : List PatPiece) (l : Str)
    (hne : pat ≠ []) (hws : ∀ q ∈ pat, pieceNoWSB q = true) :
    containsP pat (l.dropWhile isPySpace) = containsP pat l := by
  induction l with
  | nil => rfl
  | cons c cs ih =>
    by_cases hc : isPySpace c
    · rcases pat with _ | ⟨q, qs⟩
      · exact absurd rfl hne
      · rw [List.dropWhile_cons, if_pos hc, ih]
        show containsP (q :: qs) cs =
          (matchP (q :: qs) (c :: cs) || containsP (q :: qs) cs)
        rw [matchP_false_of_ws q qs c cs (hws q (List.mem_cons_self q qs)) (by simpa using hc)]
        simp
    · rw [List.dropWhile_cons, if_neg hc]

theorem matchP_append_ws (pat : List PatPiece) (z w : Str)
    (hws : ∀ q ∈ pat, pieceNoWSB q = true)
    (hw : ∀ c ∈ w, isPySpace c = true) :
    matchP pat (z ++ w) = matchP pat z := by
  induction pat generalizing z with
  | nil => rfl
  | cons q qs ih =>
    cases z with
    | nil =>
      cases w with
      | nil => rfl
      | cons wc w2 =>
        show matchP (q :: qs) (wc :: w2) = matchP (q :: qs) []
        rw [matchP_false_of_ws q qs wc w2 (hws q (List.mem_cons_self q qs))
          (hw wc (List.mem_cons_self wc w2))]
        rfl
    | cons a z2 =>
      show (pieceMatch q a && matchP qs (z2 ++ w)) = (pieceMatch q a && matchP qs z2)
      rw [ih z2 (fun x hx => hws x (List.mem_cons_of_mem q hx))]

theorem containsP_all_ws (pat : List PatPiece) (w : Str) (hne : pat ≠ [])
    (hws : ∀ q ∈ pat, pieceNoWSB q = true)
    (hw : ∀ c ∈ w, isPySpace c = true) : containsP pat w = false := by
  induction w with
  | nil =>
    rcases pat with _ | ⟨q, qs⟩
    · exact absurd rfl hne
    · rfl
  | cons wc w2 ih =>
    rcases pat with _ | ⟨q, qs⟩
    · exact absurd rfl hne
    · show (matchP (q :: qs) (wc :: w2) || containsP (q :: qs) w2) = false
      rw [matchP_false_of_ws q qs wc w2 (hws q (List.mem_cons_self q qs))
        (hw wc (List.mem_cons_self wc w2)),
        ih (fun c hc => hw c (List.mem_cons_of_mem wc hc))]
      rfl

theorem containsP_append_ws (pat : List PatPiece) (y w : Str) (hne : pat ≠ [])
    (hws : ∀ q ∈ pat, pieceNoWSB q = true)
    (hw : ∀ c ∈ w, isPySpace c = true) :
    containsP pat (y ++ w) = containsP pat y := by
  induction y with
  | nil =>
    rw [List.nil_append]
    rcases pat with _ | ⟨q, qs⟩
    · exact absurd rfl hne
    · rw [containsP_all_ws (q :: qs) w hne hws hw]
      rfl
  | cons c y2 ih =>
    show (matchP pat ((c :: y2) ++ w) || containsP pat (y2 ++ w)) =
      (matchP pat (c :: y2) || containsP pat y2)
    rw [matchP_append_ws pat (c :: y2) w hws hw, ih]

theorem containsP_rstripWS (pat : List PatPiece) (l : Str) (hne : pat ≠ [])
    (hws : ∀ q ∈ pat, pieceNoWSB q = true) :
    containsP pat (rstripWS l) = containsP pat l := by
  obtain ⟨t, he, ht⟩ := rstripWS_prefix l
  conv_rhs => rw [he]
  rw [containsP_append_ws pat (rstripWS l) t hne hws ht]

theorem containsP_pyStrip (pat : List PatPiece) (l : Str) (hne : pat ≠ [])
    (hws : ∀ q ∈ pat, pieceNoWSB q = true) :
    containsP pat (pyStrip l) = containsP pat l := by
  unfold pyStrip
  rw [containsP_rstripWS pat _ hne hws, containsP_dropWhile pat l hne hws]

theorem dropWhile_map_lower (l : Str) :
    (l.map pyLowerChar).dropWhile isPySpace =
      (l.dropWhile isPySpace).map pyLowerChar := by
  induction l with
  | nil => rfl
  | cons c cs ih =>
    by_cases hc : isPySpace c
    · rw [List.map_cons, List.dropWhile_cons, List.dropWhile_cons,
        isPySpace_pyLowerChar c, if_pos hc, if_pos hc, ih]
    · rw [List.map_cons, List.dropWhile_cons, List.dropWhile_cons,
        isPySpace_pyLowerChar c, if_neg hc, if_neg hc, List.map_cons]

theorem pyLower_pyStrip (l : Str) : pyLower (pyStrip l) = pyStrip (pyLower l) := by
  unfold pyStrip rstripWS pyLower
  rw [dropWhile_map_lower, ← List.map_reverse, dropWhile_map_lower,
    ← List.map_reverse]

theorem any_congr {α : Type} (L : List α) (f g : α → Bool)
    (h : ∀ x ∈ L, f x = g x) : L.any f = L.any g := by
  induction L with
  | nil => rfl
  | cons a as ih =>
    simp only [List.any_cons]
    rw [h a (List.mem_cons_self a as),
      ih (fun x hx => h x (List.mem_cons_of_mem a hx))]

theorem containsP_nil_eq_false (pat : List PatPiece) (hne : pat ≠ []) :
    containsP pat [] = false := by
  rcases pat with _ | ⟨q, qs⟩
  · exact absurd rfl hne
  · rfl

theorem pyStrip_nil_of (v : Str) (h : v = [] ∨ pyStrip v = []) :
    pyStrip v = [] := by
  rcases h with h1 | h2
  · rw [h1]; rfl
  · exact h2

theorem looksLikeDate_eq_dateLikeSpec (v : Str) :
    looksLikeDate v = dateLikeSpec v := by
  have hpat : ∀ p ∈ datePatterns, p ≠ [] ∧ ∀ q ∈ p, pieceNoWSB q = true := by
    decide
  have hkw : ∀ p ∈ dateKeywords, p ≠ [] ∧ ∀ q ∈ p, pieceNoWSB q = true := by
    decide
  unfold looksLikeDate dateLikeSpec
  by_cases h : v = [] ∨ pyStrip v = []
  · rw [if_pos h]
    have hs : pyStrip v = [] := pyStrip_nil_of v h
    symm
    simp only [Bool.or_eq_false_iff]
    refine ⟨?_, ?_⟩
    · rw [List.any_eq_false]
      intro p hp
      obtain ⟨h1, h2⟩ := hpat p hp
      rw [← containsP_pyStrip p v h1 h2, hs, containsP_nil_eq_false p h1]
      simp
    · rw [List.any_eq_false]
      intro k hk
      obtain ⟨h1, h2⟩ := hkw k hk
      rw [← containsP_pyStrip k (pyLower v) h1 h2, ← pyLower_pyStrip, hs]
      rw [show pyLower [] = [] from rfl, containsP_nil_eq_false k h1]
      simp
  · rw [if_neg h]
    have h1 := any_congr datePatterns (fun p => containsP p (pyStrip v))
      (fun p => containsP p v)
      (fun p hp => containsP_pyStrip p v (hpat p hp).1 (hpat p hp).2)
    have h2 := any_congr dateKeywords
      (fun k => containsP k (pyLower (pyStrip v)))
      (fun k => containsP k (pyLower v))
      (fun k hk => by
        show containsP k (pyLower (pyStrip v)) = containsP k (pyLower v)
        rw [pyLower_pyStrip]
        exact containsP_pyStrip k (pyLower v) (hkw k hk).1 (hkw k hk).2)
    show ((datePatterns.any fun p => containsP p (pyStrip v)) ||
        dateKeywords.any fun k => containsP k (pyLower (pyStrip v))) =
      ((datePatterns.any fun p => containsP p v) ||
        dateKeywords.any fun k => containsP k (pyLower v))
    rw [h1, h2]

theorem pyStrip_sublist (l : Str) : List.Sublist (pyStrip l) l := by
  unfold pyStrip
  obtain ⟨t, he, -⟩ := rstripWS_prefix (l.dropWhile isPySpace)
  have h1 : List.Sublist (rstripWS (l.dropWhile isPySpace))
      (l.dropWhile isPySpace) := by
    conv_rhs => rw [he]
    exact (List.prefix_append _ t).sublist
  exact h1.trans (List.dropWhile_sublist _)

/-!
Round trip: the standard rendering of a valid datetime re-parses under the
first format of `formats_to_try` to the same datetime.
-/

theorem parse2dig_pad2 (fr : Nat → Bool) (st : Nat → PyDateTime → PyDateTime)
    (next : Str → PyDateTime → Option PyDateTime) (v : Nat) (hv : v ≤ 99)
    (hr : fr v = true) (s2 : Str) (acc : PyDateTime) (r : PyDateTime)
    (hcont : next s2 (st v acc) = some r) :
    parse2dig fr st next (pad2 v ++ s2) acc = some r := by
  have hq : v / 10 < 10 := by omega
  have hm : v % 10 < 10 := by omega
  show (if (isDigitChar (digitChar (v / 10)) && isDigitChar (digitChar (v % 10)) &&
        fr (digVal (digitChar (v / 10)) * 10 + digVal (digitChar (v % 10)))) = true
      then
        match next s2
            (st (digVal (digitChar (v / 10)) * 10 + digVal (digitChar (v % 10)))
              acc) with
        | some r2 => some r2
        | none =>
          if (isDigitChar (digitChar (v / 10)) &&
              fr (digVal (digitChar (v / 10)))) = true then
            next (digitChar (v % 10) :: s2) (st (digVal (digitChar (v / 10))) acc)
          else none
      else
        if (isDigitChar (digitChar (v / 10)) &&
            fr (digVal (digitChar (v / 10)))) = true then
          next (digitChar (v % 10) :: s2) (st (digVal (digitChar (v / 10))) acc)
        else none) = some r
  rw [isDigitChar_digitChar _ hq, isDigitChar_digitChar _ hm,
    digVal_digitChar _ hq, digVal_digitChar _ hm,
    show v / 10 * 10 + v % 10 = v by omega, hr, hcont]
  simp

theorem parseItems_field (f : FmtItem) (rest : List FmtItem) (v : Nat)
    (hf : f = .month ∨ f = .day ∨ f = .hour ∨ f = .minute ∨ f = .second)
    (hv : v ≤ 99) (hr : fieldRange f v = true) (s2 : Str) (acc : PyDateTime)
    (r : PyDateTime) (hcont : parseItems rest s2 (setField f v acc) = some r) :
    parseItems (f :: rest) (pad2 v ++ s2) acc = some r := by
  rcases hf with rfl | rfl | rfl | rfl | rfl <;>
    exact parse2dig_pad2 _ _ _ v hv hr s2 acc r hcont

theorem parseItems_year_pad4 (y : Nat) (hy : y ≤ 9999) (rest : List FmtItem)
    (s2 : Str) (acc : PyDateTime) (r : PyDateTime)
    (hcont : parseItems rest s2 { acc with year := y } = some r) :
    parseItems (.year :: rest) (pad4 y ++ s2) acc = some r := by
  have h1 : y / 1000 < 10 := by omega
  have h2 : y / 100 % 10 < 10 := by omega
  have h3 : y / 10 % 10 < 10 := by omega
  have h4 : y % 10 < 10 := by omega
  show (if (isDigitChar (digitChar (y / 1000)) &&
        isDigitChar (digitChar (y / 100 % 10)) &&
        isDigitChar (digitChar (y / 10 % 10)) &&
        isDigitChar (digitChar (y % 10))) = true then
      parseItems rest s2
        { acc with
          year := ((digVal (digitChar (y / 1000)) * 10 +
              digVal (digitChar (y / 100 % 10))) * 10 +
              digVal (digitChar (y / 10 % 10))) * 10 +
              digVal (digitChar (y % 10)) }
    else none) = some r
  rw [isDigitChar_digitChar _ h1, isDigitChar_digitChar _ h2,
    isDigitChar_digitChar _ h3, isDigitChar_digitChar _ h4,
    digVal_digitChar _ h1, digVal_digitChar _ h2, digVal_digitChar _ h3,
    digVal_digitChar _ h4,
    show ((y / 1000 * 10 + y / 100 % 10) * 10 + y / 10 % 10) * 10 + y % 10 = y
      by omega]
  simp only [Bool.and_self, if_true]
  exact hcont

theorem parseItems_lit_cons (c : Char) (rest : List FmtItem) (s2 : Str)
    (acc : PyDateTime) (r : PyDateTime)
    (hcont : parseItems rest s2 acc = some r) :
    parseItems (.lit c :: rest) (c :: s2) acc = some r := by
  show (if c = c then parseItems rest s2 acc else none) = some r
  rw [if_pos rfl, hcont]

theorem parseItems_wsp_cons (rest : List FmtItem) (s2 : Str)
    (acc : PyDateTime) (r : PyDateTime)
    (hnl : s2.dropWhile isPySpace = s2)
    (hcont : parseItems rest s2 acc = some r) :
    parseItems (.wsp :: rest) (' ' :: s2) acc = some r := by
  show (if isPySpace ' ' = true then
      parseItems rest (s2.dropWhile isPySpace) acc else none) = some r
  rw [if_pos (show isPySpace ' ' = true from rfl), hnl, hcont]

theorem daysInMonth_le_31 (y m : Nat) : daysInMonth y m ≤ 31 := by
  unfold daysInMonth
  split
  · split <;> omega
  · split <;> omega

theorem parseItems_fmtStd (y m d hh mi s : Nat) (hy : y ≤ 9999)
    (hm1 : 1 ≤ m) (hm : m ≤ 12) (hd1 : 1 ≤ d) (hd : d ≤ 31) (hh2 : hh ≤ 23)
    (hmi : mi ≤ 59) (hs : s ≤ 59) (acc : PyDateTime) :
    parseItems fmtStd (formatStd ⟨y, m, d, hh, mi, s⟩) acc =
      some ⟨y, m, d, hh, mi, s⟩ := by
  show parseItems fmtStd
    (pad4 y ++ '-' ::
      (pad2 m ++ '-' ::
        (pad2 d ++ ' ' ::
          (pad2 hh ++ ':' :: (pad2 mi ++ ':' :: pad2 s))))) acc = _
  apply parseItems_year_pad4 y hy
  apply parseItems_lit_cons
  apply parseItems_field .month _ m (Or.inl rfl) (by omega)
    (by simp only [fieldRange, Bool.and_eq_true, decide_eq_true_eq]; omega)
  apply parseItems_lit_cons
  apply parseItems_field .day _ d (Or.inr (Or.inl rfl)) (by omega)
    (by simp only [fieldRange, Bool.and_eq_true, decide_eq_true_eq]; omega)
  apply parseItems_wsp_cons
  · apply dropWhile_eq_self_of_noLeadB
    show noLeadB (digitChar (hh / 10) :: _) = true
    simp [noLeadB, isPySpace_digitChar _ (by omega : hh / 10 < 10)]
  apply parseItems_field .hour _ hh (Or.inr (Or.inr (Or.inl rfl))) (by omega)
    (by simp only [fieldRange, decide_eq_true_eq]; omega)
  apply parseItems_lit_cons
  apply parseItems_field .minute _ mi (Or.inr (Or.inr (Or.inr (Or.inl rfl))))
    (by omega) (by simp only [fieldRange, decide_eq_true_eq]; omega)
  apply parseItems_lit_cons
  have hs2 : pad2 s ++ [] = pad2 s := by simp
  rw [← hs2]
  apply parseItems_field .second _ s (Or.inr (Or.inr (Or.inr (Or.inr rfl))))
    (by omega) (by simp only [fieldRange, decide_eq_true_eq]; omega)
  rfl

theorem strptimeFmt_formatStd (dt : PyDateTime) (h : validDT dt = true) :
    strptimeFmt fmtStd (formatStd dt) = some dt := by
  obtain ⟨y, m, d, hh, mi, s⟩ := dt
  have hdm := daysInMonth_le_31 y m
  have hv := h
  simp only [validDT, Bool.and_eq_true, decide_eq_true_eq] at h
  have he : strptimeFmt fmtStd (formatStd ⟨y, m, d, hh, mi, s⟩) =
      if validDT ⟨y, m, d, hh, mi, s⟩ = true
      then some ⟨y, m, d, hh, mi, s⟩ else none := by
    unfold strptimeFmt
    rw [parseItems_fmtStd y m d hh mi s (by omega) (by omega) (by omega)
      (by omega) (by omega) (by omega) (by omega) (by omega)]
  rw [he, if_pos hv]

theorem tryFormats_formatStd (dt : PyDateTime) (h : validDT dt = true) :
    tryFormats (formatStd dt) = some dt := by
  have he : tryFormats (formatStd dt) =
      tryFormats.go (formatStd dt) formatsToTry := rfl
  rw [he]
  show tryFormats.go (formatStd dt) (fmtStd ::
    [fmtDMYslash, fmtMDYslash, fmtYMDslash, fmtDMYdash, fmtMDYdash,
     fmtCompact]) = some dt
  unfold tryFormats.go
  rw [strptimeFmt_formatStd dt h]

theorem strptimeFmt_valid (items : List FmtItem) (s : Str) (dt : PyDateTime)
    (h : strptimeFmt items s = some dt) : validDT dt = true := by
  rcases hp : parseItems items s ⟨1900, 1, 1, 0, 0, 0⟩ with _ | dt2
  · have he : strptimeFmt items s = none := by
      unfold strptimeFmt
      rw [hp]
    rw [he] at h
    exact absurd h (by simp)
  · have he : strptimeFmt items s =
        if validDT dt2 = true then some dt2 else none := by
      unfold strptimeFmt
      rw [hp]
    rw [he] at h
    by_cases hv : validDT dt2 = true
    · rw [if_pos hv] at h
      simp only [Option.some.injEq] at h
      rw [← h]
      exact hv
    · rw [if_neg hv] at h
      exact absurd h (by simp)

theorem tryFormats_go_valid (s : Str) (fmts : List (List FmtItem))
    (dt : PyDateTime) (h : tryFormats.go s fmts = some dt) :
    validDT dt = true := by
  induction fmts with
  | nil => exact absurd h (by simp [tryFormats.go])
  | cons f r ih =>
    rcases hf : strptimeFmt f s with _ | dt2
    · have he : tryFormats.go s (f :: r) = tryFormats.go s r := by
        conv_lhs => unfold tryFormats.go
        rw [hf]
      rw [he] at h
      exact ih h
    · have he : tryFormats.go s (f :: r) = some dt2 := by
        conv_lhs => unfold tryFormats.go
        rw [hf]
      rw [he] at h
      simp only [Option.some.injEq] at h
      rw [← h]
      exact strptimeFmt_valid f s dt2 hf

theorem tryFormats_valid (s : Str) (dt : PyDateTime)
    (h : tryFormats s = some dt) : validDT dt = true :=
  tryFormats_go_valid s formatsToTry dt h

/-!
Structural facts about the standard rendering, and the behaviour of the
per-field repair on it.
-/

theorem isDigitChar_digitChar_any (k : Nat) :
    isDigitChar (digitChar k) = true := by
  unfold digitChar
  split <;> decide

theorem formatStd_length (dt : PyDateTime) : (formatStd dt).length = 19 := by
  simp [formatStd, pad4, pad2]

theorem formatStd_ne_nil (dt : PyDateTime) : formatStd dt ≠ [] := by
  intro h
  have := congrArg List.length h
  rw [formatStd_length] at this
  simp at this

theorem noLeadB_formatStd (dt : PyDateTime) : noLeadB (formatStd dt) = true := by
  show noLeadB (digitChar (dt.year / 1000) :: _) = true
  simp only [noLeadB, Bool.not_eq_true']
  exact isPySpace_of_isDigitChar _ (isDigitChar_digitChar_any _)

theorem noTrailB_pad2 (n : Nat) : noTrailB (pad2 n) = true := by
  show noLeadB (List.reverse [digitChar (n / 10), digitChar (n % 10)]) = true
  simp only [List.reverse_cons, List.reverse_nil, List.nil_append,
    List.cons_append, noLeadB, Bool.not_eq_true']
  exact isPySpace_of_isDigitChar _ (isDigitChar_digitChar_any _)

theorem pad2_ne_nil (n : Nat) : pad2 n ≠ [] := by simp [pad2]

theorem noTrailB_formatStd (dt : PyDateTime) :
    noTrailB (formatStd dt) = true := by
  unfold formatStd
  rw [noTrailB_append_right _ _ (by simp),
    noTrailB_cons _ _ (by simp [pad2]),
    noTrailB_append_right _ _ (by simp),
    noTrailB_cons _ _ (by simp [pad2]),
    noTrailB_append_right _ _ (by simp),
    noTrailB_cons _ _ (by simp [pad2]),
    noTrailB_append_right _ _ (by simp),
    noTrailB_cons _ _ (by simp [pad2]),
    noTrailB_append_right _ _ (by simp),
    noTrailB_cons _ _ (pad2_ne_nil _)]
  exact noTrailB_pad2 _

theorem pyStrip_formatStd (dt : PyDateTime) :
    pyStrip (formatStd dt) = formatStd dt :=
  pyStrip_eq_self _ (noLeadB_formatStd dt) (noTrailB_formatStd dt)

theorem formatStd_chars (dt : PyDateTime) (c : Char) (h : c ∈ formatStd dt) :
    isDigitChar c = true ∨ c = '-' ∨ c = ' ' ∨ c = ':' := by
  simp only [formatStd, pad4, pad2, List.mem_append, List.mem_cons,
    List.not_mem_nil, or_false] at h
  repeat' rcases h with h | h
  all_goals simp [isDigitChar_digitChar_any]

theorem comma_not_mem_formatStd (dt : PyDateTime) : ',' ∉ formatStd dt := by
  intro h
  rcases formatStd_chars dt ',' h with h1 | h1 | h1 | h1 <;>
    exact absurd h1 (by decide)

theorem pyUpper_length (s : Str) : (pyUpper s).length = s.length :=
  List.length_map s pyUpperChar

theorem pyUpper_formatStd_not_open (dt : PyDateTime) :
    ¬ pyUpper (formatStd dt) = str "OPEN" := by
  intro h
  have hl := congrArg List.length h
  rw [pyUpper_length, formatStd_length] at hl
  exact absurd hl (by decide)

theorem pyUpper_formatStd_not_sentinel (dt : PyDateTime) :
    pyUpper (formatStd dt) ∉ nonDateValues := by
  intro h
  simp only [nonDateValues, List.mem_cons, List.not_mem_nil, or_false] at h
  repeat' rcases h with h | h
  all_goals {
    have hl := congrArg List.length h
    rw [pyUpper_length, formatStd_length] at hl
    exact absurd hl (by decide)
  }

theorem repairDateField_guard (now v : Str) (h : v = [] ∨ pyStrip v = []) :
    repairDateField now v = v := by
  unfold repairDateField
  rw [if_pos h]

theorem repairDateField_eval (now v : Str) (h : ¬ (v = [] ∨ pyStrip v = [])) :
    repairDateField now v =
      (if pyUpper (pyStrip v) = str "OPEN" then now
       else if pyUpper (pyStrip v) ∈ nonDateValues then now
       else
         match tryFormats (pyStrip v) with
         | some dt => formatStd dt
         | none => pyStrip v) := by
  unfold repairDateField
  rw [if_neg h]

theorem repairDateField_formatStd (now : Str) (dt : PyDateTime)
    (h : validDT dt = true) :
    repairDateField now (formatStd dt) = formatStd dt := by
  rw [repairDateField_eval now (formatStd dt)
    (by
      intro hc
      exact formatStd_ne_nil dt (by
        rcases hc with h1 | h2
        · exact h1
        · rwa [pyStrip_formatStd] at h2)),
    pyStrip_formatStd]
  rw [if_neg (pyUpper_formatStd_not_open dt),
    if_neg (pyUpper_formatStd_not_sentinel dt), tryFormats_formatStd dt h]

theorem repairDateField_double (now1 now2 v : Str) (d1 : PyDateTime)
    (hd1 : validDT d1 = true) (hn : now1 = formatStd d1) :
    repairDateField now2 (repairDateField now1 v) = repairDateField now1 v := by
  by_cases h0 : v = [] ∨ pyStrip v = []
  · rw [repairDateField_guard now1 v h0, repairDateField_guard now2 v h0]
  · have hvs : pyStrip v ≠ [] := fun hc => h0 (Or.inr hc)
    rw [repairDateField_eval now1 v h0]
    by_cases hOpen : pyUpper (pyStrip v) = str "OPEN"
    · rw [if_pos hOpen, hn]
      exact repairDateField_formatStd now2 d1 hd1
    · rw [if_neg hOpen]
      by_cases hSent : pyUpper (pyStrip v) ∈ nonDateValues
      · rw [if_pos hSent, hn]
        exact repairDateField_formatStd now2 d1 hd1
      · rw [if_neg hSent]
        rcases htf : tryFormats (pyStrip v) with _ | dt
        · show repairDateField now2 (pyStrip v) = pyStrip v
          have h0w : ¬ (pyStrip v = [] ∨ pyStrip (pyStrip v) = []) := by
            rw [pyStrip_idem]
            intro hc
            rcases hc with hc | hc <;> exact hvs hc
          rw [repairDateField_eval now2 (pyStrip v) h0w, pyStrip_idem,
            if_neg hOpen, if_neg hSent, htf]
        · show repairDateField now2 (formatStd dt) = formatStd dt
          exact repairDateField_formatStd now2 dt (tryFormats_valid _ dt htf)

theorem rstripWS_eq_nil (l : Str) (h : rstripWS l = []) :
    ∀ c ∈ l, isPySpace c = true := by
  intro c hc
  have h1 : l.reverse.dropWhile isPySpace = [] := by
    have h2 := congrArg List.reverse h
    rw [rstripWS_reverse] at h2
    simpa using h2
  rw [List.dropWhile_eq_nil_iff] at h1
  exact h1 c (List.mem_reverse.mpr hc)

theorem pyStrip_ne_nil_of_noLead (v : Str) (hv : v ≠ [])
    (h : noLeadB v = true) : pyStrip v ≠ [] := by
  intro hc
  cases v with
  | nil => exact hv rfl
  | cons c cs =>
    unfold pyStrip at hc
    rw [dropWhile_eq_self_of_noLeadB _ h] at hc
    have := rstripWS_eq_nil _ hc c (List.mem_cons_self c cs)
    simp only [noLeadB, Bool.not_eq_true'] at h
    rw [h] at this
    exact absurd this (by simp)

theorem mem_pyStrip_of_mem {c : Char} {l : Str} (h : c ∈ pyStrip l) : c ∈ l :=
  (pyStrip_sublist l).subset h

theorem repairDateField_comma_free (now v : Str) (d1 : PyDateTime)
    (hn : now = formatStd d1) (h : ',' ∉ v) :
    ',' ∉ repairDateField now v := by
  by_cases h0 : v = [] ∨ pyStrip v = []
  · rw [repairDateField_guard now v h0]
    exact h
  · rw [repairDateField_eval now v h0]
    by_cases hOpen : pyUpper (pyStrip v) = str "OPEN"
    · rw [if_pos hOpen, hn]
      exact comma_not_mem_formatStd d1
    · rw [if_neg hOpen]
      by_cases hSent : pyUpper (pyStrip v) ∈ nonDateValues
      · rw [if_pos hSent, hn]
        exact comma_not_mem_formatStd d1
      · rw [if_neg hSent]
        rcases htf : tryFormats (pyStrip v) with _ | dt
        · exact fun hc => h (mem_pyStrip_of_mem hc)
        · exact comma_not_mem_formatStd dt

theorem repairDateField_noLead (now v : Str) (d1 : PyDateTime)
    (hn : now = formatStd d1) (h : noLeadB v = true) :
    noLeadB (repairDateField now v) = true := by
  by_cases h0 : v = [] ∨ pyStrip v = []
  · rw [repairDateField_guard now v h0]
    exact h
  · rw [repairDateField_eval now v h0]
    by_cases hOpen : pyUpper (pyStrip v) = str "OPEN"
    · rw [if_pos hOpen, hn]
      exact noLeadB_formatStd d1
    · rw [if_neg hOpen]
      by_cases hSent : pyUpper (pyStrip v) ∈ nonDateValues
      · rw [if_pos hSent, hn]
        exact noLeadB_formatStd d1
      · rw [if_neg hSent]
        rcases htf : tryFormats (pyStrip v) with _ | dt
        · exact noLeadB_pyStrip v
        · exact noLeadB_formatStd dt

theorem repairDateField_noTrail (now v : Str) (d1 : PyDateTime)
    (hn : now = formatStd d1) (h : noTrailB v = true) :
    noTrailB (repairDateField now v) = true := by
  by_cases h0 : v = [] ∨ pyStrip v = []
  · rw [repairDateField_guard now v h0]
    exact h
  · rw [repairDateField_eval now v h0]
    by_cases hOpen : pyUpper (pyStrip v) = str "OPEN"
    · rw [if_pos hOpen, hn]
      exact noTrailB_formatStd d1
    · rw [if_neg hOpen]
      by_cases hSent : pyUpper (pyStrip v) ∈ nonDateValues
      · rw [if_pos hSent, hn]
        exact noTrailB_formatStd d1
      · rw [if_neg hSent]
        rcases htf : tryFormats (pyStrip v) with _ | dt
        · exact noTrailB_pyStrip v
        · exact noTrailB_formatStd dt

/-!
Indexed-map toolkit used by the whole-file repair.
-/

theorem mapWithIndex_length {α β : Type} (f : Nat → α → β) (k : Nat)
    (l : List α) : (mapWithIndex f k l).length = l.length := by
  induction l generalizing k with
  | nil => rfl
  | cons a as ih => simp [mapWithIndex, ih]

theorem mapWithIndex_ne_nil {α β : Type} (f : Nat → α → β) (k : Nat)
    (l : List α) (h : l ≠ []) : mapWithIndex f k l ≠ [] := by
  cases l with
  | nil => exact absurd rfl h
  | cons a as => simp [mapWithIndex]

theorem mem_mapWithIndex {α β : Type} (f : Nat → α → β) (k : Nat)
    (l : List α) (b : β) (h : b ∈ mapWithIndex f k l) :
    ∃ j a, k ≤ j ∧ a ∈ l ∧ b = f j a := by
  induction l generalizing k with
  | nil => exact absurd h (by simp [mapWithIndex])
  | cons a as ih =>
    rcases List.mem_cons.mp h with h1 | h1
    · exact ⟨k, a, le_refl k, List.mem_cons_self a as, h1⟩
    · obtain ⟨j, a2, hj, ha2, hb⟩ := ih (k + 1) h1
      exact ⟨j, a2, by omega, List.mem_cons_of_mem a ha2, hb⟩

theorem getLast?_mapWithIndex {α β : Type} (f : Nat → α → β) (k : Nat)
    (l : List α) (b : β) (h : (mapWithIndex f k l).getLast? = some b) :
    ∃ j a, l.getLast? = some a ∧ b = f j a := by
  induction l generalizing k with
  | nil => exact absurd h (by simp [mapWithIndex])
  | cons a as ih =>
    cases as with
    | nil =>
      simp only [mapWithIndex, List.getLast?_singleton, Option.some.injEq] at h
      exact ⟨k, a, rfl, h.symm⟩
    | cons a2 as2 =>
      have hm : mapWithIndex f k (a :: a2 :: as2) =
          f k a :: f (k + 1) a2 :: mapWithIndex f (k + 2) as2 := rfl
      rw [hm, List.getLast?_cons_cons] at h
      obtain ⟨j, x, hx, hb⟩ := ih (k + 1) h
      refine ⟨j, x, ?_, hb⟩
      rw [List.getLast?_cons_cons]
      exact hx

theorem mapWithIndex_mapWithIndex {α β γ : Type} (g : Nat → β → γ)
    (f : Nat → α → β) (k : Nat) (l : List α) :
    mapWithIndex g k (mapWithIndex f k l) =
      mapWithIndex (fun i a => g i (f i a)) k l := by
  induction l generalizing k with
  | nil => rfl
  | cons a as ih => simp [mapWithIndex, ih]

theorem mapWithIndex_congr_fn {α β : Type} (f g : Nat → α → β) (k : Nat)
    (l : List α) (h : ∀ i a, f i a = g i a) :
    mapWithIndex f k l = mapWithIndex g k l := by
  induction l generalizing k with
  | nil => rfl
  | cons a as ih => simp [mapWithIndex, h, ih]

theorem mapWithIndex_id_of {α : Type} (f : Nat → α → α) (k : Nat) (l : List α)
    (h : ∀ i a, f i a = a) : mapWithIndex f k l = l := by
  induction l generalizing k with
  | nil => rfl
  | cons a as ih => simp [mapWithIndex, h, ih]

theorem mapWithIndex_getD {α β : Type} (f : Nat → α → β) (k : Nat) (l : List α)
    (i : Nat) (hi : i < l.length) (da : α) (db : β) :
    (mapWithIndex f k l).getD i db = f (k + i) (l.getD i da) := by
  induction l generalizing k i with
  | nil => exact absurd hi (by simp)
  | cons a as ih =>
    cases i with
    | zero => simp [mapWithIndex]
    | succ j =>
      have hj : j < as.length := by simpa using hi
      simp only [mapWithIndex, List.getD_cons_succ]
      rw [ih (k + 1) j hj]
      congr 1
      omega

theorem drop_mapWithIndex {α β : Type} (f : Nat → α → β) (k : Nat) (l : List α)
    (n : Nat) :
    (mapWithIndex f k l).drop n = mapWithIndex f (k + n) (l.drop n) := by
  induction l generalizing k n with
  | nil => simp [mapWithIndex]
  | cons a as ih =>
    cases n with
    | zero => simp [mapWithIndex]
    | succ m =>
      have : (mapWithIndex f k (a :: as)).drop (m + 1) =
          (mapWithIndex f (k + 1) as).drop m := rfl
      rw [this, ih (k + 1) m]
      congr 1
      omega

theorem mem_enumFrom_mapWithIndex {α β : Type} (g : Nat → α → β) (k : Nat)
    (l : List α) (j : Nat) (b : β)
    (h : (j, b) ∈ enumFrom k (mapWithIndex g k l)) : ∃ a, b = g j a := by
  induction l generalizing k with
  | nil => exact absurd h (by simp [mapWithIndex, enumFrom])
  | cons a as ih =>
    have he : enumFrom k (mapWithIndex g k (a :: as)) =
        (k, g k a) :: enumFrom (k + 1) (mapWithIndex g (k + 1) as) := rfl
    rw [he] at h
    rcases List.mem_cons.mp h with h1 | h1
    · have hj : j = k := congrArg Prod.fst h1
      have hb : b = g k a := congrArg Prod.snd h1
      exact ⟨a, by rw [hb, hj]⟩
    · exact ih (k + 1) h1

/-!
The repaired line is strip-fixed, re-splits into its fields, and is a fixed
point of a second repair pass.
-/

theorem noTrailB_of_suffix (x a : Str) (hx : noTrailB x = true)
    (h : List.IsSuffix a x) : noTrailB a = true := by
  obtain ⟨t, rfl⟩ := h
  cases a with
  | nil => rfl
  | cons c cs =>
    unfold noTrailB at hx ⊢
    rw [List.reverse_append, noLeadB_append_left _ _ (by simp)] at hx
    exact hx

theorem noLeadB_repairField_if (now : Str) (i : Nat) (idxs : List Nat)
    (f : Str) (d1 : PyDateTime) (hn : now = formatStd d1)
    (h : noLeadB f = true) :
    noLeadB (if i ∈ idxs then repairDateField now f else f) = true := by
  by_cases hi : i ∈ idxs
  · rw [if_pos hi]
    exact repairDateField_noLead now f d1 hn h
  · rwa [if_neg hi]

theorem noTrailB_repairField_if (now : Str) (i : Nat) (idxs : List Nat)
    (f : Str) (d1 : PyDateTime) (hn : now = formatStd d1)
    (h : noTrailB f = true) :
    noTrailB (if i ∈ idxs then repairDateField now f else f) = true := by
  by_cases hi : i ∈ idxs
  · rw [if_pos hi]
    exact repairDateField_noTrail now f d1 hn h
  · rwa [if_neg hi]

theorem comma_free_repairField_if (now : Str) (i : Nat) (idxs : List Nat)
    (f : Str) (d1 : PyDateTime) (hn : now = formatStd d1) (h : ',' ∉ f) :
    ',' ∉ (if i ∈ idxs then repairDateField now f else f) := by
  by_cases hi : i ∈ idxs
  · rw [if_pos hi]
    exact repairDateField_comma_free now f d1 hn h
  · rwa [if_neg hi]

theorem pyStrip_repairLine (now : Str) (idxs : List Nat) (line : Str)
    (d1 : PyDateTime) (hn : now = formatStd d1) :
    pyStrip (repairLine now idxs line) = repairLine now idxs line := by
  rcases hsp : pySplit (pyStrip line) with _ | ⟨f, r⟩
  · exact absurd hsp (pySplitSep_ne_nil ',' _)
  · have hout : repairLine now idxs line =
        pyJoin ((if 0 ∈ idxs then repairDateField now f else f) ::
          mapWithIndex
            (fun i f2 => if i ∈ idxs then repairDateField now f2 else f2) 1 r) := by
      unfold repairLine
      rw [hsp]
      rfl
    rw [hout]
    apply pyStrip_eq_self
    · apply noLeadB_pyJoin
      exact noLeadB_repairField_if now 0 idxs f d1 hn
        (noLeadB_pySplit_head _ f r hsp (noLeadB_pyStrip line))
    · apply noTrailB_pyJoin
      intro p hp
      have hp2 : ((if 0 ∈ idxs then repairDateField now f else f) ::
          mapWithIndex
            (fun i f2 => if i ∈ idxs then repairDateField now f2 else f2) 1 r) =
          mapWithIndex
            (fun i f2 => if i ∈ idxs then repairDateField now f2 else f2) 0
            (f :: r) := rfl
      rw [hp2] at hp
      obtain ⟨j, a, ha, hpa⟩ := getLast?_mapWithIndex _ 0 (f :: r) p hp
      have hsuf : List.IsSuffix a (pyStrip line) := by
        apply pySplit_getLast_suffix
        rw [hsp]
        exact ha
      have hta : noTrailB a = true :=
        noTrailB_of_suffix _ a (noTrailB_pyStrip line) hsuf
      rw [hpa]
      exact noTrailB_repairField_if now j idxs a d1 hn hta

theorem pySplit_repairLine (now : Str) (idxs : List Nat) (line : Str)
    (d1 : PyDateTime) (hn : now = formatStd d1) :
    pySplit (repairLine now idxs line) =
      mapWithIndex (fun i f => if i ∈ idxs then repairDateField now f else f) 0
        (pySplit (pyStrip line)) := by
  unfold repairLine
  apply pySplit_pyJoin
  · exact mapWithIndex_ne_nil _ 0 _ (pySplitSep_ne_nil ',' _)
  · intro p hp
    obtain ⟨j, a, hj, ha, hpa⟩ := mem_mapWithIndex _ 0 _ p hp
    rw [hpa]
    exact comma_free_repairField_if now j idxs a d1 hn
      (fun hc => mem_pySplitSep_not_sep ',' _ a ha hc)

theorem repairLine_double (now1 now2 : Str) (idxs : List Nat) (line : Str)
    (d1 : PyDateTime) (hd1 : validDT d1 = true) (hn1 : now1 = formatStd d1) :
    repairLine now2 idxs (repairLine now1 idxs line) =
      repairLine now1 idxs line := by
  have hstrip := pyStrip_repairLine now1 idxs line d1 hn1
  have hsplit := pySplit_repairLine now1 idxs line d1 hn1
  show pyJoin (mapWithIndex
      (fun i f => if i ∈ idxs then repairDateField now2 f else f) 0
      (pySplit (pyStrip (repairLine now1 idxs line)))) = _
  rw [hstrip, hsplit, mapWithIndex_mapWithIndex]
  have hpt : ∀ (i : Nat) (a : Str),
      (if i ∈ idxs then
        repairDateField now2 (if i ∈ idxs then repairDateField now1 a else a)
      else (if i ∈ idxs then repairDateField now1 a else a)) =
      (if i ∈ idxs then repairDateField now1 a else a) := by
    intro i a
    by_cases hi : i ∈ idxs
    · simp only [if_pos hi]
      exact repairDateField_double now1 now2 a d1 hd1 hn1
    · simp only [if_neg hi]
  rw [mapWithIndex_congr_fn _ _ 0 _ hpt]
  rfl

theorem lineCorrections_repairLine (now1 now2 : Str) (idxs : List Nat)
    (line : Str) (d1 : PyDateTime) (hd1 : validDT d1 = true)
    (hn1 : now1 = formatStd d1) :
    lineCorrections now2 idxs (repairLine now1 idxs line) = 0 := by
  unfold lineCorrections
  rw [pyStrip_repairLine now1 idxs line d1 hn1,
    pySplit_repairLine now1 idxs line d1 hn1]
  rw [List.countP_eq_zero]
  intro p hp
  rcases p with ⟨j, b⟩
  obtain ⟨a, hb⟩ := mem_enumFrom_mapWithIndex _ 0 _ j b hp
  simp only [Bool.and_eq_true, decide_eq_true_eq, not_and]
  intro hj hne
  rw [hb] at hne
  rw [if_pos hj] at hne
  exact hne (repairDateField_double now1 now2 a d1 hd1 hn1)

/-!
Whole-file repair: evaluation lemmas and second-pass fixity.
-/

theorem analyzeDateProblems_short (lines : List Str) (h : lines.length < 2) :
    analyzeDateProblems lines = .short := by
  unfold analyzeDateProblems
  rw [if_pos h]

theorem analyzeDateProblems_eval (lines : List Str) (h : ¬ lines.length < 2) :
    analyzeDateProblems lines =
      .ok (pySplit (pyStrip (lines.getD 1 [])))
        (sampleAnomalies lines
          (dateColumnsOf (pySplit (pyStrip (lines.getD 1 [])))))
        (dateColumnsOf (pySplit (pyStrip (lines.getD 1 [])))) := by
  unfold analyzeDateProblems
  rw [if_neg h]

theorem repairDateIssues_short (now : Str) (lines : List Str)
    (h : lines.length < 2) :
    repairDateIssues now lines = .error .valueError := by
  unfold repairDateIssues
  rw [analyzeDateProblems_short lines h]

theorem repairDateIssues_eval (now : Str) (lines : List Str)
    (h : ¬ lines.length < 2) :
    repairDateIssues now lines =
      .ok (mapWithIndex
          (fun ln l => if ln < 2 then pyStrip l
            else repairLine now (dcolIdxs lines) l) 0 lines,
        ((lines.drop 2).map (lineCorrections now (dcolIdxs lines))).sum) := by
  unfold repairDateIssues
  rw [analyzeDateProblems_eval lines h]
  rfl

theorem repairDateIssues_double (now1 now2 : Str) (lines out : List Str)
    (c : Nat) (d1 : PyDateTime) (hd1 : validDT d1 = true)
    (hn1 : now1 = formatStd d1)
    (h : repairDateIssues now1 lines = .ok (out, c)) :
    repairDateIssues now2 out = .ok (out, 0) := by
  by_cases hlen : lines.length < 2
  · rw [repairDateIssues_short now1 lines hlen] at h
    exact absurd h (by simp)
  · rw [repairDateIssues_eval now1 lines hlen] at h
    simp only [Except.ok.injEq, Prod.mk.injEq] at h
    have hout : out = mapWithIndex
        (fun ln l => if ln < 2 then pyStrip l
          else repairLine now1 (dcolIdxs lines) l) 0 lines := h.1.symm
    have hlenout : ¬ out.length < 2 := by
      rw [hout, mapWithIndex_length]
      exact hlen
    have hget : out.getD 1 [] = pyStrip (lines.getD 1 []) := by
      rw [hout, mapWithIndex_getD _ 0 lines 1 (by omega) [] []]
      rw [if_pos (by omega : 0 + 1 < 2)]
    have hdc : dcolIdxs out = dcolIdxs lines := by
      unfold dcolIdxs
      rw [hget, pyStrip_idem]
    rw [repairDateIssues_eval now2 out hlenout, hdc]
    have hA : mapWithIndex
        (fun ln l => if ln < 2 then pyStrip l
          else repairLine now2 (dcolIdxs lines) l) 0 out = out := by
      conv_lhs => rw [hout]
      rw [mapWithIndex_mapWithIndex]
      have hpt : ∀ (i : Nat) (a : Str),
          (if i < 2 then
            pyStrip (if i < 2 then pyStrip a
              else repairLine now1 (dcolIdxs lines) a)
          else repairLine now2 (dcolIdxs lines)
            (if i < 2 then pyStrip a
              else repairLine now1 (dcolIdxs lines) a)) =
          (if i < 2 then pyStrip a
            else repairLine now1 (dcolIdxs lines) a) := by
        intro i a
        by_cases hi : i < 2
        · simp only [if_pos hi]
          exact pyStrip_idem a
        · simp only [if_neg hi]
          exact repairLine_double now1 now2 (dcolIdxs lines) a d1 hd1 hn1
      rw [mapWithIndex_congr_fn _ _ 0 _ hpt, ← hout]
    have hB : ((out.drop 2).map
        (lineCorrections now2 (dcolIdxs lines))).sum = 0 := by
      apply List.sum_eq_zero
      intro x hx
      rw [List.mem_map] at hx
      obtain ⟨l2, hl2, hxl⟩ := hx
      rw [hout, drop_mapWithIndex] at hl2
      obtain ⟨j, a, hj, ha, hla⟩ := mem_mapWithIndex _ _ _ _ hl2
      rw [← hxl, hla, if_neg (by omega : ¬ j < 2)]
      exact lineCorrections_repairLine now1 now2 (dcolIdxs lines) a d1 hd1 hn1
    rw [hA, hB]

/-!
Refinement of the per-field repair against the specification's rule list,
and column-lookup lemmas.
-/

theorem repairDateField_eq_spec (now v : Str) :
    repairDateField now v = repairFieldSpec now v := by
  have hset : sentinelSet = nonDateValues := rfl
  unfold repairFieldSpec
  rw [hset]
  by_cases h0 : v = [] ∨ pyStrip v = []
  · rw [repairDateField_guard now v h0, if_pos (pyStrip_nil_of v h0)]
  · rw [repairDateField_eval now v h0, if_neg (fun hc => h0 (Or.inr hc))]
    by_cases hOpen : pyUpper (pyStrip v) = str "OPEN"
    · rw [if_pos hOpen]
      rw [if_pos (show pyUpper (pyStrip v) ∈ nonDateValues by
        rw [hOpen]; decide)]
    · rw [if_neg hOpen]

theorem getD_mem_of_lt {α : Type} (l : List α) (i : Nat) (h : i < l.length)
    (d : α) : l.getD i d ∈ l := by
  induction l generalizing i with
  | nil => exact absurd h (by simp)
  | cons a as ih =>
    cases i with
    | zero => exact List.mem_cons_self a as
    | succ j =>
      exact List.mem_cons_of_mem a (ih j (by simpa using h))

theorem colIdx_isSome_of_mem (cols : List Str) (name : Str)
    (h : name ∈ cols) : ∃ i, colIdx cols name = some i := by
  induction cols with
  | nil => exact absurd h (by simp)
  | cons c cs ih =>
    by_cases hc : c = name
    · exact ⟨0, by simp [colIdx, hc]⟩
    · have hm : name ∈ cs := by
        rcases List.mem_cons.mp h with h1 | h1
        · exact absurd h1.symm hc
        · exact h1
      obtain ⟨i, hi⟩ := ih hm
      exact ⟨i + 1, by simp [colIdx, if_neg hc, hi]⟩

theorem colIdx_getD (cols : List Str) (name : Str) (i : Nat)
    (h : colIdx cols name = some i) :
    i < cols.length ∧ cols.getD i [] = name := by
  induction cols generalizing i with
  | nil => exact absurd h (by simp [colIdx])
  | cons c cs ih =>
    by_cases hc : c = name
    · rw [show colIdx (c :: cs) name = some 0 by simp [colIdx, hc]] at h
      simp only [Option.some.injEq] at h
      subst h
      exact ⟨by simp, hc⟩
    · rw [show colIdx (c :: cs) name = (colIdx cs name).map (· + 1) by
        simp [colIdx, hc]] at h
      rcases hcs : colIdx cs name with _ | i2
      · rw [hcs] at h
        exact absurd h (by simp)
      · rw [hcs] at h
        simp at h
        subst h
        obtain ⟨h1, h2⟩ := ih i2 hcs
        exact ⟨by simpa using h1, by simpa using h2⟩

theorem colIdx_ne_of_names_ne (cols : List Str) (n1 n2 : Str) (i j : Nat)
    (h1 : colIdx cols n1 = some i) (h2 : colIdx cols n2 = some j)
    (hne : n1 ≠ n2) : i ≠ j := by
  intro he
  obtain ⟨-, hg1⟩ := colIdx_getD cols n1 i h1
  obtain ⟨-, hg2⟩ := colIdx_getD cols n2 j h2
  rw [he, hg2] at hg1
  exact hne hg1.symm

theorem colIdx_none_of_not_mem (cols : List Str) (name : Str)
    (h : name ∉ cols) : colIdx cols name = none := by
  rcases hc : colIdx cols name with _ | i
  · rfl
  · obtain ⟨hlt, hg⟩ := colIdx_getD cols name i hc
    exact absurd (hg ▸ getD_mem_of_lt cols i hlt []) h

/-!
Manual recovery, cleaning and the strategy cascade: evaluation lemmas.
-/

theorem getD_map {α β : Type} (f : α → β) (l : List α) (i : Nat)
    (hi : i < l.length) (da : α) (db : β) :
    (l.map f).getD i db = f (l.getD i da) := by
  induction l generalizing i with
  | nil => exact absurd hi (by simp)
  | cons a as ih =>
    cases i with
    | zero => rfl
    | succ j => exact ih j (by simpa using hi)

theorem getD_set_ne {α : Type} (l : List α) (i j : Nat) (x d : α)
    (h : i ≠ j) : (l.set i x).getD j d = l.getD j d := by
  induction l generalizing i j with
  | nil => rfl
  | cons a as ih =>
    cases i with
    | zero =>
      cases j with
      | zero => exact absurd rfl h
      | succ j2 => rfl
    | succ i2 =>
      cases j with
      | zero => rfl
      | succ j2 => exact ih i2 j2 (by omega)

theorem getD_set_self {α : Type} (l : List α) (i : Nat) (x d : α)
    (h : i < l.length) : (l.set i x).getD i d = x := by
  induction l generalizing i with
  | nil => exact absurd h (by simp)
  | cons a as ih =>
    cases i with
    | zero => rfl
    | succ j => exact ih j (by simpa using h)

theorem fixRow_length (n : Nat) (fields : List Str) :
    (fixRow n fields).length = n := by
  unfold fixRow
  by_cases h1 : fields.length = n
  · rw [if_pos h1]
    simp [h1]
  · rw [if_neg h1]
    by_cases h2 : n < fields.length
    · rw [if_pos h2]
      simp only [List.length_map, List.length_take]
      omega
    · rw [if_neg h2]
      simp only [List.length_append, List.length_map, List.length_replicate]
      omega

theorem manualCsvLoader_short (lines : List Str) (h : lines.length < 2) :
    manualCsvLoader lines = .error .valueError := by
  unfold manualCsvLoader
  rw [if_pos h]

theorem manualCsvLoader_eval (lines : List Str) (h : ¬ lines.length < 2) :
    manualCsvLoader lines =
      .ok (⟨pySplit (pyStrip (lines.getD 1 [])),
        (lines.drop 2).map (fun l =>
          fixRow (pySplit (pyStrip (lines.getD 1 []))).length
            (pySplit (pyStrip l)))⟩,
        (lines.drop 2).countP (fun l =>
          decide ((pySplit (pyStrip l)).length ≠
            (pySplit (pyStrip (lines.getD 1 []))).length))) := by
  unfold manualCsvLoader
  rw [if_neg h]

theorem firstSome_all_none (srs : List (Option Df))
    (h : ∀ r ∈ srs, r = none) : firstSome srs = none := by
  induction srs with
  | nil => rfl
  | cons r rest ih =>
    rw [h r (List.mem_cons_self r rest)]
    exact ih (fun x hx => h x (List.mem_cons_of_mem r hx))

theorem firstSome_first_ok (srs : List (Option Df)) (i : Nat) (df : Df)
    (hi : srs.getD i none = some df)
    (hbefore : ∀ j, j < i → srs.getD j none = none) :
    firstSome srs = some df := by
  induction srs generalizing i with
  | nil =>
    rw [List.getD] at hi
    simp at hi
  | cons r rest ih =>
    cases i with
    | zero =>
      rw [show (r :: rest).getD 0 none = r from rfl] at hi
      rw [hi]
      rfl
    | succ i2 =>
      have h0 : r = none := hbefore 0 (by omega)
      rw [h0]
      show firstSome rest = some df
      exact ih i2 hi (fun j hj => hbefore (j + 1) (by omega))

theorem robustCsvLoader_first_ok (srs : List (Option Df)) (lines : List Str)
    (i : Nat) (df : Df) (hi : srs.getD i none = some df)
    (hbefore : ∀ j, j < i → srs.getD j none = none) :
    robustCsvLoader srs lines = some df := by
  unfold robustCsvLoader
  rw [firstSome_first_ok srs i df hi hbefore]

theorem robustCsvLoader_manual (srs : List (Option Df)) (lines : List Str)
    (h : ∀ r ∈ srs, r = none) :
    robustCsvLoader srs lines =
      (match manualCsvLoader lines with
       | .ok (df, _) => some df
       | .error _ => none) := by
  unfold robustCsvLoader
  rw [firstSome_all_none srs h]

theorem cleanAndValidateData_err (df : Df)
    (h : str "RSSI" ∉ df.cols ∨ str "Channel" ∉ df.cols) :
    cleanAndValidateData df = .error .keyError := by
  unfold cleanAndValidateData
  rcases hR : colIdx df.cols (str "RSSI") with _ | i <;>
    rcases hC : colIdx df.cols (str "Channel") with _ | j
  · rfl
  · rfl
  · rfl
  · exfalso
    rcases h with h | h
    · rw [colIdx_none_of_not_mem _ _ h] at hR
      exact absurd hR (by simp)
    · rw [colIdx_none_of_not_mem _ _ h] at hC
      exact absurd hC (by simp)

theorem cleanAndValidateData_eval (df : Df) (i j : Nat)
    (hi : colIdx df.cols (str "RSSI") = some i)
    (hj : colIdx df.cols (str "Channel") = some j) :
    cleanAndValidateData df =
      (let coerced := (df.rows.map
          (fun r => r.set i (toNumericCell (cellAt r i)))).map
          (fun r => r.set j (toNumericCell (cellAt r j)))
       let kept := coerced.filter
          (fun r => !isNaCell (cellAt r i) && !isNaCell (cellAt r j))
       .ok
        (⟨[str "SSID", str "RSSI", str "Channel"].filter
            (fun c => decide (c ∉ df.cols)),
          (df.rows.map (fun r => r.set i (toNumericCell (cellAt r i)))).countP
            (fun r => isNaCell (cellAt r i)),
          coerced.countP (fun r => isNaCell (cellAt r j)),
          coerced.length - kept.length⟩,
          ⟨df.cols, kept⟩)) := by
  unfold cleanAndValidateData
  rw [hi, hj]
  rfl

/-!
Geo-analysis preparation: well-formedness and column/cell facts for the
stage functions of `cargar_datos`.
-/

theorem toNumericCell_num_or_na (c : Cell) :
    (∃ q, toNumericCell c = Cell.num q) ∨ toNumericCell c = Cell.na := by
  cases c with
  | s v =>
    rcases hp : parseNumeric v with _ | q
    · right
      show (match parseNumeric v with
        | some q => Cell.num q
        | none => Cell.na) = Cell.na
      rw [hp]
    · left
      refine ⟨q, ?_⟩
      show (match parseNumeric v with
        | some q2 => Cell.num q2
        | none => Cell.na) = Cell.num q
      rw [hp]
  | num q => left; exact ⟨q, rfl⟩
  | na => right; rfl

theorem chanCell_int (c : Cell) :
    ∃ k : Int, astypeIntCell (fillna0Cell (toNumericCell c)) =
      Cell.num ⟨k, 0⟩ := by
  rcases toNumericCell_num_or_na c with ⟨q, hq⟩ | hna
  · rw [hq]
    exact ⟨q.mant.tdiv ((10 : Int) ^ q.exp), rfl⟩
  · rw [hna]
    exact ⟨0, rfl⟩

theorem mapCol_cols (df : Df) (i : Nat) (f : Cell → Cell) :
    (mapCol df i f).cols = df.cols := rfl

theorem numFillStep_cols (name : Str) (df : Df) :
    (numFillStep name df).cols = df.cols := by
  unfold numFillStep
  rcases colIdx df.cols name with _ | i <;> rfl

theorem numStep_cols (name : Str) (df : Df) :
    (numStep name df).cols = df.cols := by
  unfold numStep
  rcases colIdx df.cols name with _ | i <;> rfl

theorem coordStep_cols (name : Str) (df : Df) :
    (coordStep name df).cols = df.cols := by
  unfold coordStep
  rcases colIdx df.cols name with _ | i <;> rfl

theorem mapCol_wf (df : Df) (i : Nat) (f : Cell → Cell) (h : dfWF df) :
    dfWF (mapCol df i f) := by
  intro r hr
  obtain ⟨r0, hr0, hre⟩ := List.mem_map.mp hr
  rw [← hre, List.length_set]
  exact h r0 hr0

theorem numFillStep_wf (name : Str) (df : Df) (h : dfWF df) :
    dfWF (numFillStep name df) := by
  unfold numFillStep
  rcases colIdx df.cols name with _ | i
  · exact h
  · exact mapCol_wf df i _ h

theorem numStep_wf (name : Str) (df : Df) (h : dfWF df) :
    dfWF (numStep name df) := by
  unfold numStep
  rcases colIdx df.cols name with _ | i
  · exact h
  · exact mapCol_wf df i _ h

theorem coordStep_wf (name : Str) (df : Df) (h : dfWF df) :
    dfWF (coordStep name df) := by
  unfold coordStep
  rcases colIdx df.cols name with _ | i
  · exact h
  · intro r hr
    exact mapCol_wf df i _ h r (List.mem_filter.mp hr).1

theorem dfSetColFn_wf (df : Df) (name : Str) (f : List Cell → Cell)
    (h : dfWF df) : dfWF (dfSetColFn df name f) := by
  unfold dfSetColFn
  rcases colIdx df.cols name with _ | i
  · intro r hr
    obtain ⟨r0, hr0, hre⟩ := List.mem_map.mp hr
    rw [← hre]
    simp only [List.length_append, List.length_singleton, Df.cols]
    rw [h r0 hr0]
  · intro r hr
    obtain ⟨r0, hr0, hre⟩ := List.mem_map.mp hr
    rw [← hre, List.length_set]
    exact h r0 hr0

theorem aliasStep_wf (df : Df) (col : Str) (h : dfWF df) :
    dfWF (aliasStep df col) := by
  unfold aliasStep
  rcases hf : (aliasesFor col).find? (fun cand => decide (cand ∈ df.cols))
    with _ | cand
  · exact h
  · show dfWF (match colIdx df.cols cand with
      | some i => dfSetColFn df col fun r => cellAt r i
      | none => df)
    rcases hi : colIdx df.cols cand with _ | i
    · exact h
    · exact dfSetColFn_wf df col _ h

theorem foldl_aliasStep_wf (fal : List Str) (df : Df) (h : dfWF df) :
    dfWF (fal.foldl aliasStep df) := by
  induction fal generalizing df with
  | nil => exact h
  | cons col rest ih => exact ih (aliasStep df col) (aliasStep_wf df col h)

theorem applyAliasMapping_wf (df : Df) (h : dfWF df) :
    dfWF (applyAliasMapping df) :=
  foldl_aliasStep_wf _ df h

theorem coordStep_num (name : Str) (df : Df) (i : Nat)
    (hi : colIdx df.cols name = some i) (hwf : dfWF df) :
    ∀ r ∈ (coordStep name df).rows, ∃ q, cellAt r i = Cell.num q := by
  intro r hr
  unfold coordStep at hr
  rw [hi] at hr
  obtain ⟨hmem, hkeep⟩ := List.mem_filter.mp hr
  obtain ⟨r0, hr0, hre⟩ := List.mem_map.mp hmem
  have hlen : i < r0.length := by
    rw [hwf r0 hr0]
    exact (colIdx_getD df.cols name i hi).1
  have hcell : cellAt r i = toNumericCell (cellAt r0 i) := by
    rw [← hre]
    exact getD_set_self r0 i _ .na hlen
  rcases toNumericCell_num_or_na (cellAt r0 i) with ⟨q, hq⟩ | hna
  · exact ⟨q, by rw [hcell, hq]⟩
  · exfalso
    rw [hcell, hna] at hkeep
    exact absurd hkeep (by simp [isNaCell])

theorem mapCol_preserves (df : Df) (j i : Nat) (f : Cell → Cell)
    (P : Cell → Prop) (hne : j ≠ i) (hall : ∀ r ∈ df.rows, P (cellAt r i)) :
    ∀ r ∈ (mapCol df j f).rows, P (cellAt r i) := by
  intro r hr
  obtain ⟨r0, hr0, hre⟩ := List.mem_map.mp hr
  rw [← hre]
  show P ((r0.set j (f (cellAt r0 j))).getD i .na)
  rw [getD_set_ne r0 j i _ _ hne]
  exact hall r0 hr0

theorem numFillStep_preserves (name : Str) (df : Df) (i : Nat)
    (P : Cell → Prop) (hne : ∀ j, colIdx df.cols name = some j → j ≠ i)
    (hall : ∀ r ∈ df.rows, P (cellAt r i)) :
    ∀ r ∈ (numFillStep name df).rows, P (cellAt r i) := by
  unfold numFillStep
  rcases hj : colIdx df.cols name with _ | j
  · exact hall
  · exact mapCol_preserves df j i _ P (hne j hj) hall

theorem numStep_preserves (name : Str) (df : Df) (i : Nat)
    (P : Cell → Prop) (hne : ∀ j, colIdx df.cols name = some j → j ≠ i)
    (hall : ∀ r ∈ df.rows, P (cellAt r i)) :
    ∀ r ∈ (numStep name df).rows, P (cellAt r i) := by
  unfold numStep
  rcases hj : colIdx df.cols name with _ | j
  · exact hall
  · exact mapCol_preserves df j i _ P (hne j hj) hall

theorem coordStep_preserves (name : Str) (df : Df) (i : Nat)
    (P : Cell → Prop) (hne : ∀ j, colIdx df.cols name = some j → j ≠ i)
    (hall : ∀ r ∈ df.rows, P (cellAt r i)) :
    ∀ r ∈ (coordStep name df).rows, P (cellAt r i) := by
  unfold coordStep
  rcases hj : colIdx df.cols name with _ | j
  · exact hall
  · intro r hr
    exact mapCol_preserves df j i _ P (hne j hj) hall r
      (List.mem_filter.mp hr).1

theorem numFillStep_int (name : Str) (df : Df) (i : Nat)
    (hi : colIdx df.cols name = some i) (hwf : dfWF df) :
    ∀ r ∈ (numFillStep name df).rows,
      ∃ k : Int, cellAt r i = Cell.num ⟨k, 0⟩ := by
  intro r hr
  unfold numFillStep at hr
  rw [hi] at hr
  obtain ⟨r0, hr0, hre⟩ := List.mem_map.mp hr
  have hlen : i < r0.length := by
    rw [hwf r0 hr0]
    exact (colIdx_getD df.cols name i hi).1
  have hcell : cellAt r i =
      astypeIntCell (fillna0Cell (toNumericCell (cellAt r0 i))) := by
    rw [← hre]
    exact getD_set_self r0 i _ .na hlen
  obtain ⟨k, hk⟩ := chanCell_int (cellAt r0 i)
  exact ⟨k, by rw [hcell, hk]⟩

theorem cargarDatosPrepare_props (toDT : Cell → Cell) (df0 df8 : Df)
    (hwf : dfWF df0) (h : cargarDatosPrepare toDT df0 = .ok df8) :
    (∀ i, colIdx df8.cols (str "CurrentLatitude") = some i →
      ∀ r ∈ df8.rows, ∃ q, cellAt r i = Cell.num q) ∧
    (∀ i, colIdx df8.cols (str "CurrentLongitude") = some i →
      ∀ r ∈ df8.rows, ∃ q, cellAt r i = Cell.num q) ∧
    (∀ i, colIdx df8.cols (str "Channel") = some i →
      ∀ r ∈ df8.rows, ∃ k : Int, cellAt r i = Cell.num ⟨k, 0⟩) ∧
    (∀ i, colIdx df8.cols (str "Frequency") = some i →
      ∀ r ∈ df8.rows, ∃ k : Int, cellAt r i = Cell.num ⟨k, 0⟩) := by
  unfold cargarDatosPrepare at h
  rcases hfs : colIdx (applyAliasMapping ⟨df0.cols.map pyStrip, df0.rows⟩).cols
      (str "FirstSeen") with _ | fsIdx
  · rw [hfs] at h
    exact absurd h (by simp)
  · rw [hfs] at h
    simp only [Except.ok.injEq] at h
    subst h
    set A := dfSetColFn (applyAliasMapping ⟨df0.cols.map pyStrip, df0.rows⟩)
      (str "Timestamp") (fun r => toDT (cellAt r fsIdx)) with hAdef
    set B := numFillStep (str "Channel") A with hBdef
    set C := numFillStep (str "Frequency") B with hCdef
    set D := numStep (str "RSSI") C with hDdef
    set E1 := coordStep (str "CurrentLatitude") D with hE1def
    have hwf1 : dfWF (⟨df0.cols.map pyStrip, df0.rows⟩ : Df) := by
      intro r hr
      show r.length = (df0.cols.map pyStrip).length
      rw [List.length_map]
      exact hwf r hr
    have hwfA : dfWF A := dfSetColFn_wf _ _ _ (applyAliasMapping_wf _ hwf1)
    have hwfB : dfWF B := numFillStep_wf _ _ hwfA
    have hwfC : dfWF C := numFillStep_wf _ _ hwfB
    have hwfD : dfWF D := numStep_wf _ _ hwfC
    have hwfE1 : dfWF E1 := coordStep_wf _ _ hwfD
    have hcB : B.cols = A.cols := numFillStep_cols _ _
    have hcC : C.cols = A.cols := by rw [hCdef, numFillStep_cols, hcB]
    have hcD : D.cols = A.cols := by rw [hDdef, numStep_cols, hcC]
    have hcE1 : E1.cols = A.cols := by rw [hE1def, coordStep_cols, hcD]
    have hcE2 : (coordStep (str "CurrentLongitude") E1).cols = A.cols := by
      rw [coordStep_cols, hcE1]
    refine ⟨?_, ?_, ?_, ?_⟩
    · intro i hi
      rw [hcE2, ← hcD] at hi
      have hbase := coordStep_num (str "CurrentLatitude") D i hi hwfD
      exact coordStep_preserves (str "CurrentLongitude") E1 i
        (fun c => ∃ q, c = Cell.num q)
        (fun j hj => by
          rw [hcE1, ← hcD] at hj
          exact colIdx_ne_of_names_ne D.cols (str "CurrentLongitude")
            (str "CurrentLatitude") j i hj hi (by decide))
        hbase
    · intro i hi
      rw [hcE2, ← hcE1] at hi
      exact coordStep_num (str "CurrentLongitude") E1 i hi hwfE1
    · intro i hi
      rw [hcE2] at hi
      have hbase := numFillStep_int (str "Channel") A i hi hwfA
      have hstep1 := numFillStep_preserves (str "Frequency") B i
        (fun c => ∃ k : Int, c = Cell.num ⟨k, 0⟩)
        (fun j hj => by
          rw [hcB] at hj
          exact colIdx_ne_of_names_ne A.cols (str "Frequency")
            (str "Channel") j i hj hi (by decide))
        hbase
      have hstep2 := numStep_preserves (str "RSSI") C i
        (fun c => ∃ k : Int, c = Cell.num ⟨k, 0⟩)
        (fun j hj => by
          rw [hcC] at hj
          exact colIdx_ne_of_names_ne A.cols (str "RSSI")
            (str "Channel") j i hj hi (by decide))
        hstep1
      have hstep3 := coordStep_preserves (str "CurrentLatitude") D i
        (fun c => ∃ k : Int, c = Cell.num ⟨k, 0⟩)
        (fun j hj => by
          rw [hcD] at hj
          exact colIdx_ne_of_names_ne A.cols (str "CurrentLatitude")
            (str "Channel") j i hj hi (by decide))
        hstep2
      exact coordStep_preserves (str "CurrentLongitude") E1 i
        (fun c => ∃ k : Int, c = Cell.num ⟨k, 0⟩)
        (fun j hj => by
          rw [hcE1] at hj
          exact colIdx_ne_of_names_ne A.cols (str "CurrentLongitude")
            (str "Channel") j i hj hi (by decide))
        hstep3
    · intro i hi
      rw [hcE2] at hi
      have hiB : colIdx B.cols (str "Frequency") = some i := by
        rw [hcB]
        exact hi
      have hbase := numFillStep_int (str "Frequency") B i hiB hwfB
      have hstep2 := numStep_preserves (str "RSSI") C i
        (fun c => ∃ k : Int, c = Cell.num ⟨k, 0⟩)
        (fun j hj => by
          rw [hcC] at hj
          exact colIdx_ne_of_names_ne A.cols (str "RSSI")
            (str "Frequency") j i hj hi (by decide))
        hbase
      have hstep3 := coordStep_preserves (str "CurrentLatitude") D i
        (fun c => ∃ k : Int, c = Cell.num ⟨k, 0⟩)
        (fun j hj => by
          rw [hcD] at hj
          exact colIdx_ne_of_names_ne A.cols (str "CurrentLatitude")
            (str "Frequency") j i hj hi (by decide))
        hstep2
      exact coordStep_preserves (str "CurrentLongitude") E1 i
        (fun c => ∃ k : Int, c = Cell.num ⟨k, 0⟩)
        (fun j hj => by
          rw [hcE1] at hj
          exact colIdx_ne_of_names_ne A.cols (str "CurrentLongitude")
            (str "Frequency") j i hj hi (by decide))
        hstep3


/-!
Claim theorems.
-/

/-- C1: the claim says `analyze_date_problems` and `repair_date_issues`
terminate normally and, on a file with fewer than two lines, report the
condition and return a no-result outcome rather than crashing. The analysis
function does return its no-result 2-tuple, but `repair_date_issues` unpacks
that 2-tuple into three variables outside its `try` block, so on every file
with fewer than two lines it raises an uncaught `ValueError` instead of
returning `None`: the code contradicts the spec (and its own `except` arm,
which produces a 3-tuple for exactly this unpacking). -/
theorem claim_C1 :
    analyzeDateProblems [str "only one line"] = .short ∧
    repairDateIssues (str "NOW") [str "only one line"] =
      .error .valueError ∧
    analyzeDateProblems [] = .short ∧
    repairDateIssues (str "NOW") [] = .error .valueError := by
  decide

/-- C2: the Manual Recovery parser takes line index 1 as the header line,
splits it on commas into `n` headers, and maps every subsequent data line
with `k` fields to exactly one output row of exactly `n` cells — unchanged
when `k = n`, truncated to the first `n` when `k > n`, padded at the tail
with missing markers when `k < n`; no row is dropped, the corrected-row
count is part of the result, and the loader fails only on files with fewer
than two lines. -/
theorem claim_C2 :
    (∀ lines : List Str, 2 ≤ lines.length →
      ∃ df cnt, manualCsvLoader lines = .ok (df, cnt) ∧
        df.cols = pySplit (pyStrip (lines.getD 1 [])) ∧
        df.rows.length = lines.length - 2 ∧
        (∀ r ∈ df.rows, r.length = df.cols.length) ∧
        (∀ i, i < lines.length - 2 →
          ((pySplit (pyStrip ((lines.drop 2).getD i []))).length =
              df.cols.length →
            df.rows.getD i [] =
              (pySplit (pyStrip ((lines.drop 2).getD i []))).map Cell.s) ∧
          (df.cols.length <
              (pySplit (pyStrip ((lines.drop 2).getD i []))).length →
            df.rows.getD i [] =
              ((pySplit (pyStrip ((lines.drop 2).getD i []))).take
                df.cols.length).map Cell.s) ∧
          ((pySplit (pyStrip ((lines.drop 2).getD i []))).length <
              df.cols.length →
            df.rows.getD i [] =
              (pySplit (pyStrip ((lines.drop 2).getD i []))).map Cell.s ++
                List.replicate (df.cols.length -
                  (pySplit (pyStrip ((lines.drop 2).getD i []))).length)
                  Cell.na)) ∧
        cnt = (lines.drop 2).countP (fun l =>
          decide ((pySplit (pyStrip l)).length ≠
            (pySplit (pyStrip (lines.getD 1 []))).length))) ∧
    (∀ lines : List Str, lines.length < 2 →
      manualCsvLoader lines = .error .valueError) := by
  constructor
  · intro lines h2
    have heval := manualCsvLoader_eval lines (by omega)
    refine ⟨_, _, heval, rfl, ?_, ?_, ?_, rfl⟩
    · rw [List.length_map, List.length_drop]
    · intro r hr
      obtain ⟨l, hl, hrl⟩ := List.mem_map.mp hr
      rw [← hrl, fixRow_length]
    · intro i hi
      have hlt : i < (lines.drop 2).length := by
        rw [List.length_drop]
        exact hi
      have hget : ((lines.drop 2).map (fun l =>
          fixRow (pySplit (pyStrip (lines.getD 1 []))).length
            (pySplit (pyStrip l)))).getD i [] =
          fixRow (pySplit (pyStrip (lines.getD 1 []))).length
            (pySplit (pyStrip ((lines.drop 2).getD i []))) :=
        getD_map _ _ i hlt [] []
      refine ⟨?_, ?_, ?_⟩
      · intro hcase
        rw [hget]
        unfold fixRow
        rw [if_pos hcase]
      · intro hcase
        have hcase2 : (pySplit (pyStrip (lines.getD 1 []))).length <
            (pySplit (pyStrip ((lines.drop 2).getD i []))).length := hcase
        rw [hget]
        unfold fixRow
        rw [if_neg (by omega), if_pos hcase2]
      · intro hcase
        have hcase2 : (pySplit (pyStrip ((lines.drop 2).getD i []))).length <
            (pySplit (pyStrip (lines.getD 1 []))).length := hcase
        rw [hget]
        unfold fixRow
        rw [if_neg (by omega), if_neg (by omega)]
  · exact manualCsvLoader_short

/-- Witness for C2 at a concrete four-line file containing a short row and
a long row. -/
theorem claim_C2_witness :
    2 ≤ ([str "meta", str "A,B", str "1", str "1,2,3"] : List Str).length ∧
    ∃ df cnt,
      manualCsvLoader [str "meta", str "A,B", str "1", str "1,2,3"] =
        .ok (df, cnt) := by
  refine ⟨by decide, ?_⟩
  obtain ⟨df, cnt, h1, -⟩ :=
    claim_C2.1 [str "meta", str "A,B", str "1", str "1,2,3"] (by decide)
  exact ⟨df, cnt, h1⟩

/-- C3: the Type Coercion and Validator stage coerces every RSSI and
Channel value, turning unparseable values into missing without raising,
then removes exactly the rows whose RSSI or Channel is missing after
coercion (both counts are part of the diagnostics); a row with
`RSSI="abc", Channel="6"` is dropped while `RSSI="-55", Channel="11"` is
retained with numeric values -55 and 11. -/
theorem claim_C3 :
    (∀ (df : Df) (i j : Nat),
      colIdx df.cols (str "RSSI") = some i →
      colIdx df.cols (str "Channel") = some j →
      ∃ diag df2, cleanAndValidateData df = .ok (diag, df2) ∧
        df2.cols = df.cols ∧
        df2.rows = ((df.rows.map
            (fun r => r.set i (toNumericCell (cellAt r i)))).map
            (fun r => r.set j (toNumericCell (cellAt r j)))).filter
            (fun r => !isNaCell (cellAt r i) && !isNaCell (cellAt r j)) ∧
        (∀ r ∈ df2.rows,
          isNaCell (cellAt r i) = false ∧ isNaCell (cellAt r j) = false) ∧
        diag.removedRows = ((df.rows.map
            (fun r => r.set i (toNumericCell (cellAt r i)))).map
            (fun r => r.set j (toNumericCell (cellAt r j)))).length -
          df2.rows.length) ∧
    cleanAndValidateData exampleCoercionDf =
      .ok (⟨[], 1, 0, 1⟩,
        ⟨exampleCoercionDf.cols,
         [[Cell.s (str "y"), Cell.num ⟨-55, 0⟩, Cell.num ⟨11, 0⟩]]⟩) := by
  constructor
  · intro df i j hi hj
    rw [cleanAndValidateData_eval df i j hi hj]
    refine ⟨_, _, rfl, rfl, rfl, ?_, rfl⟩
    intro r hr
    have hmem := List.mem_filter.mp hr
    have hp := hmem.2
    simp only [Bool.and_eq_true, Bool.not_eq_true'] at hp
    exact hp
  · decide

/-- Witness for C3 at the two-row example frame. -/
theorem claim_C3_witness :
    colIdx exampleCoercionDf.cols (str "RSSI") = some 1 ∧
    colIdx exampleCoercionDf.cols (str "Channel") = some 2 ∧
    ∃ diag df2, cleanAndValidateData exampleCoercionDf = .ok (diag, df2) := by
  refine ⟨by decide, by decide, ?_⟩
  obtain ⟨diag, df2, h1, -⟩ :=
    claim_C3.1 exampleCoercionDf 1 2 (by decide) (by decide)
  exact ⟨diag, df2, h1⟩

/-- C4 counterexample: the claim's pass-through rule says a value matched
by neither the sentinel rule nor the seven formats is returned unchanged,
but `repair_date_field` returns `value_str`, the whitespace-stripped value:
on input `" abc"` no earlier rule fires, yet the output is `"abc"`, not
`" abc"` (and the whole-file pass therefore counts it as a correction). -/
theorem claim_C4_counterexample :
    pyUpper (pyStrip (str " abc")) ≠ str "OPEN" ∧
    pyUpper (pyStrip (str " abc")) ∉ nonDateValues ∧
    tryFormats (pyStrip (str " abc")) = none ∧
    repairDateField (str "X") (str " abc") = str "abc" ∧
    str " abc" ≠ str "abc" := by
  decide

/-- C4 (amended): the per-field repair is exactly the specification's
first-match-wins rule list, with the pass-through rule amended — an
unresolvable value is returned stripped of surrounding whitespace (verbatim
only when empty or whitespace-only). The sentinel rule compares the
stripped value case-insensitively against the fixed set, the seven formats
are tried in order (so DD/MM/YYYY precedes MM/DD/YYYY), and a successful
parse is re-emitted as `YYYY-MM-DD HH:MM:SS`. -/
theorem claim_C4 :
    (∀ now v : Str, repairDateField now v = repairFieldSpec now v) ∧
    repairDateField (str "NOW") (str "WPA2") = str "NOW" ∧
    repairDateField (str "NOW") (str "opEn") = str "NOW" ∧
    repairDateField (str "NOW") (str "15/03/2024 10:30:00") =
      str "2024-03-15 10:30:00" ∧
    repairDateField (str "NOW") (str "garbage") = str "garbage" :=
  ⟨repairDateField_eq_spec, by decide, by decide, by decide, by decide⟩

/-- C5: the date-repair engine is idempotent. An already-normalized value
(the standard rendering of a valid datetime) re-parses under the first
format and is re-emitted unchanged, and re-running the whole-file repair on
a first run's output reproduces that output byte for byte (with zero new
corrections), for any wall-clock readings of the two runs. -/
theorem claim_C5 :
    (∀ (now : Str) (d : PyDateTime), validDT d = true →
      repairDateField now (formatStd d) = formatStd d ∧
      strptimeFmt fmtStd (formatStd d) = some d) ∧
    (∀ (lines out : List Str) (c : Nat) (now1 now2 : Str) (d1 : PyDateTime),
      validDT d1 = true → now1 = formatStd d1 →
      repairDateIssues now1 lines = .ok (out, c) →
      repairDateIssues now2 out = .ok (out, 0)) :=
  ⟨fun now d hd =>
    ⟨repairDateField_formatStd now d hd, strptimeFmt_formatStd d hd⟩,
   fun lines out c now1 now2 d1 hd hn h =>
    repairDateIssues_double now1 now2 lines out c d1 hd hn h⟩

/-- Witness for C5: a concrete normalized value is a fixed point, and a
second whole-file pass over a concrete repaired file is the identity. -/
theorem claim_C5_witness :
    validDT ⟨2024, 3, 15, 10, 30, 0⟩ = true ∧
    repairDateField (str "X") (formatStd ⟨2024, 3, 15, 10, 30, 0⟩) =
      formatStd ⟨2024, 3, 15, 10, 30, 0⟩ ∧
    repairDateIssues (str "Y") witnessRepairedFile =
      .ok (witnessRepairedFile, 0) := by
  refine ⟨by decide, (claim_C5.1 (str "X") ⟨2024, 3, 15, 10, 30, 0⟩
    (by decide)).1, ?_⟩
  exact claim_C5.2 [str "meta", str "SSID,FirstSeen", str "a,WPA2"]
    witnessRepairedFile 1 (str "2025-06-01 12:00:00") (str "Y")
    ⟨2025, 6, 1, 12, 0, 0⟩ (by decide) (by decide) (by decide)

/-- C6: the anomaly classifier marks a value date-like exactly when it
matches one of the four fixed date patterns or contains a year,
month-abbreviation or meridiem token case-insensitively; `"2024-01-05"` is
date-like while `"WPA2"` and the empty string are anomalous. -/
theorem claim_C6 :
    (∀ v : Str, looksLikeDate v = dateLikeSpec v) ∧
    looksLikeDate (str "2024-01-05") = true ∧
    looksLikeDate (str "WPA2") = false ∧
    looksLikeDate (str "") = false :=
  ⟨looksLikeDate_eq_dateLikeSpec, by decide, by decide, by decide⟩

/-- C7: the robust loader returns the result of the first strategy that
succeeds — a strategy failure advances to the next strategy rather than
aborting — and when every strategy fails, Manual Recovery runs: its
success becomes the loaded frame and its failure makes the whole load
return no dataset. -/
theorem claim_C7 :
    (∀ (srs : List (Option Df)) (lines : List Str) (i : Nat) (df : Df),
      srs.getD i none = some df →
      (∀ j, j < i → srs.getD j none = none) →
      robustCsvLoader srs lines = some df) ∧
    (∀ (srs : List (Option Df)) (lines : List Str) (df : Df) (c : Nat),
      (∀ r ∈ srs, r = none) →
      manualCsvLoader lines = .ok (df, c) →
      robustCsvLoader srs lines = some df) ∧
    (∀ (srs : List (Option Df)) (lines : List Str) (e : PyErr),
      (∀ r ∈ srs, r = none) →
      manualCsvLoader lines = .error e →
      robustCsvLoader srs lines = none) := by
  refine ⟨fun srs lines i df hi hb =>
    robustCsvLoader_first_ok srs lines i df hi hb, ?_, ?_⟩
  · intro srs lines df c h hm
    rw [robustCsvLoader_manual srs lines h, hm]
  · intro srs lines e h hm
    rw [robustCsvLoader_manual srs lines h, hm]

/-- Witness for C7: the second strategy's frame is returned when the first
fails, and a total failure (all strategies and Manual Recovery) returns no
dataset. -/
theorem claim_C7_witness :
    robustCsvLoader [none, some exampleCoercionDf, none, none] [] =
      some exampleCoercionDf ∧
    robustCsvLoader [none, none, none, none] [] = none := by
  constructor
  · exact claim_C7.1 [none, some exampleCoercionDf, none, none] [] 1
      exampleCoercionDf (by decide)
      (fun j hj => by
        match j with
        | 0 => rfl
        | n + 1 => exact absurd hj (by omega))
  · exact claim_C7.2.2 [none, none, none, none] [] .valueError (by decide)
      (by decide)

/-- C8 counterexample: the claim says a wholly absent canonical column is
non-fatal and the cleaning stage still returns a dataset, but for a frame
that lacks `RSSI`, `dropna(subset=['RSSI','Channel'])` raises `KeyError`,
so cleaning aborts and the analysis operation ends with no dataset. -/
theorem claim_C8_counterexample :
    str "RSSI" ∉ (⟨[str "SSID", str "Channel"],
      [[Cell.s (str "x"), Cell.s (str "6")]]⟩ : Df).cols ∧
    cleanAndValidateData ⟨[str "SSID", str "Channel"],
      [[Cell.s (str "x"), Cell.s (str "6")]]⟩ = .error .keyError ∧
    analyzeWifiInterference
      [some ⟨[str "SSID", str "Channel"],
        [[Cell.s (str "x"), Cell.s (str "6")]]⟩] [] = .ok none := by
  decide

/-- C8 (amended): the non-fatal continuation holds only for absent critical
columns outside the drop subset — an absent `SSID` is recorded in the
warning list and cleaning still returns a dataset — whereas a frame lacking
`RSSI` or `Channel` makes the cleaning stage raise `KeyError`, and the
analysis of any file whose loaded frame lacks one of them returns no
dataset. -/
theorem claim_C8 :
    (∀ df : Df, str "RSSI" ∉ df.cols ∨ str "Channel" ∉ df.cols →
      cleanAndValidateData df = .error .keyError) ∧
    (∀ (srs : List (Option Df)) (lines : List Str) (df : Df),
      robustCsvLoader srs lines = some df →
      str "RSSI" ∉ df.cols ∨ str "Channel" ∉ df.cols →
      analyzeWifiInterference srs lines = .ok none) ∧
    (∀ (df : Df) (i j : Nat),
      colIdx df.cols (str "RSSI") = some i →
      colIdx df.cols (str "Channel") = some j →
      ∃ diag df2, cleanAndValidateData df = .ok (diag, df2) ∧
        (str "SSID" ∉ df.cols → str "SSID" ∈ diag.missingCriticals)) := by
  refine ⟨fun df h => cleanAndValidateData_err df h, ?_, ?_⟩
  · intro srs lines df h h2
    unfold analyzeWifiInterference
    simp only [h, cleanAndValidateData_err df h2]
  · intro df i j hi hj
    rw [cleanAndValidateData_eval df i j hi hj]
    refine ⟨_, _, rfl, ?_⟩
    intro hnot
    exact List.mem_filter.mpr ⟨by decide, decide_eq_true hnot⟩

/-- Witness for C8: a concrete frame with `RSSI` and `Channel` but no
`SSID` passes cleaning with the warning recorded, and a loaded frame
missing `RSSI` ends the analysis with no dataset. -/
theorem claim_C8_witness :
    analyzeWifiInterference
      [some ⟨[str "BSSID", str "Channel"],
        [[Cell.s (str "x"), Cell.s (str "6")]]⟩] [] = .ok none ∧
    ∃ diag df2,
      cleanAndValidateData ⟨[str "RSSI", str "Channel"],
        [[Cell.s (str "-55"), Cell.s (str "6")]]⟩ = .ok (diag, df2) ∧
      str "SSID" ∈ diag.missingCriticals := by
  constructor
  · exact claim_C8.2.1 [some ⟨[str "BSSID", str "Channel"],
      [[Cell.s (str "x"), Cell.s (str "6")]]⟩] []
      ⟨[str "BSSID", str "Channel"], [[Cell.s (str "x"), Cell.s (str "6")]]⟩
      (by decide) (Or.inl (by decide))
  · obtain ⟨diag, df2, h1, h2⟩ := claim_C8.2.2
      ⟨[str "RSSI", str "Channel"], [[Cell.s (str "-55"), Cell.s (str "6")]]⟩
      0 1 (by decide) (by decide)
    exact ⟨diag, df2, h1, h2 (by decide)⟩

set_option maxRecDepth 4000 in
/-- C9: on the 500-data-row scenario file — 50 rows with two extra
trailing fields, 25 distinct rows with Channel `N/A` — when every pandas
strategy fails, Manual Recovery loads all 500 rows (truncating the 50
long rows and reporting them as problematic), and Type Coercion with the
critical-field drop then removes exactly the 25 uncoercible-Channel rows,
yielding a canonical dataset of 475 rows. -/
theorem claim_C9 :
    ∀ srs : List (Option Df), (∀ r ∈ srs, r = none) →
      robustCsvLoader srs scenarioFile = some scenarioDf ∧
      manualCsvLoader scenarioFile = .ok (scenarioDf, 50) ∧
      scenarioDf.rows.length = 500 ∧
      cleanAndValidateData scenarioDf = .ok (⟨[], 0, 25, 25⟩, scenarioClean) ∧
      scenarioClean.rows.length = 475 := by
  intro srs h
  have hm : manualCsvLoader scenarioFile = .ok (scenarioDf, 50) := by decide
  refine ⟨?_, hm, by decide, by decide, by decide⟩
  rw [robustCsvLoader_manual srs scenarioFile h, hm]

/-- Witness for C9: the pipeline outcome when the four strategies all
fail on the scenario file. -/
theorem claim_C9_witness :
    robustCsvLoader [none, none, none, none] scenarioFile =
      some scenarioDf ∧
    cleanAndValidateData scenarioDf =
      .ok (⟨[], 0, 25, 25⟩, scenarioClean) := by
  obtain ⟨h1, -, -, h4, -⟩ :=
    claim_C9 [none, none, none, none] (by decide)
  exact ⟨h1, h4⟩

/-- C10 counterexample: the claim says a successful geo-analysis load
guarantees every row a non-missing numeric `CurrentLatitude` and
`CurrentLongitude`; but on a frame offering no latitude column under any
alias, `cargar_datos` still reports success and the prepared frame has no
`CurrentLatitude` column at all. -/
theorem claim_C10_counterexample :
    cargarDatosPrepare (fun _ => Cell.na) geoNoLatDf = .ok geoNoLatOut ∧
    str "CurrentLatitude" ∉ geoNoLatOut.cols := by
  decide

/-- C10 (amended): when loading succeeds, each coordinate column that is
present in the prepared frame holds a numeric value in every row (the
rows failing coercion for that coordinate were dropped) — but an absent
coordinate column leaves the load succeeding with the coordinate wholly
missing — and a `Channel` or `Frequency` value failing numeric coercion
never drops its row: both become integers (0 for uncoercible values), as
shown concretely by the frame whose `Channel` and `Frequency` are both
uncoercible. -/
theorem claim_C10 :
    (∀ (toDT : Cell → Cell) (df0 df8 : Df), dfWF df0 →
      cargarDatosPrepare toDT df0 = .ok df8 →
      (∀ i, colIdx df8.cols (str "CurrentLatitude") = some i →
        ∀ r ∈ df8.rows, ∃ q, cellAt r i = Cell.num q) ∧
      (∀ i, colIdx df8.cols (str "CurrentLongitude") = some i →
        ∀ r ∈ df8.rows, ∃ q, cellAt r i = Cell.num q) ∧
      (∀ i, colIdx df8.cols (str "Channel") = some i →
        ∀ r ∈ df8.rows, ∃ k : Int, cellAt r i = Cell.num ⟨k, 0⟩) ∧
      (∀ i, colIdx df8.cols (str "Frequency") = some i →
        ∀ r ∈ df8.rows, ∃ k : Int, cellAt r i = Cell.num ⟨k, 0⟩)) ∧
    cargarDatosPrepare (fun _ => Cell.na) geoNaChanDf = .ok geoNaChanOut := by
  refine ⟨?_, by decide⟩
  intro toDT df0 df8 hwf h
  exact cargarDatosPrepare_props toDT df0 df8 hwf h

/-- Witness for C10: on the frame whose `Channel` and `Frequency` are both
uncoercible, the prepared row is kept with an integer channel and an
integer frequency. -/
theorem claim_C10_witness :
    (∃ k : Int,
      cellAt (geoNaChanOut.rows.getD 0 []) 2 = Cell.num ⟨k, 0⟩) ∧
    (∃ k : Int,
      cellAt (geoNaChanOut.rows.getD 0 []) 3 = Cell.num ⟨k, 0⟩) := by
  have hp := claim_C10.1 (fun _ => Cell.na) geoNaChanDf geoNaChanOut
    (by unfold dfWF; decide) (by decide)
  exact ⟨hp.2.2.1 2 (by decide) (geoNaChanOut.rows.getD 0 []) (by decide),
    hp.2.2.2 3 (by decide) (geoNaChanOut.rows.getD 0 []) (by decide)⟩
